import Mathlib

/-!
Verification of the desktop-automation orchestrator ("Gpt-trader" agent).

This file is a shallow embedding, in Lean 4, of the orchestration core:

* `agent/apps/registry.py`   — application registry (launch plans, single-instance
  policy, liveness reconciliation, record selection);
* `agent/runner/ui_engine.py` — UI interaction strategy resolution;
* `agent/state/store.py` and `agent/runner/steps.py` — activity audit trail and
  recipe execution;
* `agent/runner/intent_watcher.py` — intent file validation/dispatch/archival;
* `agent/runner/chat_commands.py`, `agent/runner/chat_bridge.py`,
  `agent/vision/ocr_intents.py` — chat command grammar, intent emission, and
  OCR marker deduplication.

External collaborators (the OS window manager, process spawning, the clock,
the filesystem, OCR capture, the natural-language router) are modelled as
explicit parameters/oracles; Python dictionaries are modelled as association
lists with first-match lookup and in-place update, and Python exceptions as
`Except` error values.  Timestamps irrelevant to the verified properties are
modelled as `Nat` parameters.
-/

set_option autoImplicit false

namespace Agent

/-! ## Python-style primitives: dictionaries, truthiness, string helpers -/

/-- Association-list lookup (first match), modelling `dict.__getitem__`/`dict.get`. -/
def alist_get {α : Type} : List (String × α) → String → Option α
  | [], _ => none
  | (k0, v0) :: rest, k => if k0 = k then some v0 else alist_get rest k

/-- Association-list insert-or-replace, modelling `d[k] = v` (insertion order kept,
new keys appended at the end, as in Python dictionaries). -/
def alist_set {α : Type} : List (String × α) → String → α → List (String × α)
  | [], k, v => [(k, v)]
  | (k0, v0) :: rest, k, v =>
    if k0 = k then (k0, v) :: rest else (k0, v0) :: alist_set rest k v

/-- Association-list removal, modelling `d.pop(k, None)`. -/
def alist_remove {α : Type} : List (String × α) → String → List (String × α)
  | [], _ => []
  | (k0, v0) :: rest, k => if k0 = k then rest else (k0, v0) :: alist_remove rest k

/-- Replace the value at an existing key, leaving the map unchanged when the key is
absent.  Used to mirror in-place mutation of an object that a Python dict holds a
reference to: mutating the object updates the entry, but never re-inserts a popped key. -/
def alist_replace {α : Type} : List (String × α) → String → α → List (String × α)
  | [], _, _ => []
  | (k0, v0) :: rest, k, v =>
    if k0 = k then (k0, v) :: rest else (k0, v0) :: alist_replace rest k v

/-- String-valued dictionary (environment blocks, parsed argument maps). -/
abbrev StrMap := List (String × String)

/-- `base.update(overlay)` for Python dictionaries. -/
def dict_update (base overlay : StrMap) : StrMap :=
  overlay.foldl (fun acc kv => alist_set acc kv.1 kv.2) base

/-- First-some choice on options; used to state layered-lookup properties. -/
def opt_or {α : Type} : Option α → Option α → Option α
  | some v, _ => some v
  | none, b => b

/-- Truthiness of an optional string (`None` and `""` are falsy in Python). -/
def py_truthy_str : Option String → Bool
  | none => false
  | some s => !s.isEmpty

/-- `str.isdigit` restricted to ASCII decimal digits (the only ones produced here). -/
def py_isdigit (s : String) : Bool :=
  !s.isEmpty && s.data.all Char.isDigit

/-- ASCII whitespace recognised by Python's `str.strip` / the regex class `\s`. -/
def py_isspace (c : Char) : Bool :=
  c = ' ' || c = '\t' || c = '\n' || c = '\r' || c = Char.ofNat 11 || c = Char.ofNat 12

/-- `str.strip()` over ASCII whitespace. -/
def py_strip (s : String) : String :=
  String.mk (((s.data.dropWhile py_isspace).reverse.dropWhile py_isspace).reverse)

/-- `str.lower()` for the ASCII command grammar, mapped per character. -/
def lower_string (s : String) : String :=
  String.mk (s.data.map Char.toLower)

/-- Characters allowed in command/argument names by the chat grammar
(`[a-zA-Z0-9_.-]`). -/
def is_name_char (c : Char) : Bool :=
  c.isAlpha || c.isDigit || c = '_' || c = '.' || c = '-'

/-- The separator class `[\s+:-]` of the OCR marker grammar. -/
def is_marker_sep (c : Char) : Bool :=
  py_isspace c || c = '+' || c = ':' || c = '-'

/-- Code-point lexicographic order on character lists (Python string `<`). -/
def chars_lt : List Char → List Char → Bool
  | [], [] => false
  | [], _ :: _ => true
  | _ :: _, [] => false
  | a :: as, b :: bs => if a < b then true else if b < a then false else chars_lt as bs

/-- Python string comparison (code-point lexicographic). -/
def str_lt (a b : String) : Bool := chars_lt a.data b.data

/-! ## UI interaction engine (`agent/runner/ui_engine.py`)

A strategy invocation on a `UIElementHandle` either returns a boolean or raises;
the concrete handles in the source always return `True`, but the engine's contract
is over arbitrary collaborator behaviour (the tests stub each method), so each
method's outcome is a field of the modelled element. -/

/-- Outcome of calling one interaction strategy on an element. -/
inductive StrategyResult
  | ok (value : Bool)
  | exc (msg : String)
deriving DecidableEq

/-- `UIElementHandle` with the outcome each of its strategy methods would produce. -/
structure UIElementHandle where
  identifier : String
  is_enabled : Bool
  invoke : StrategyResult
  toggle : StrategyResult
  select : StrategyResult
  msaa_default_action : StrategyResult
  send_bm_click : StrategyResult
  focus_tap : StrategyResult
deriving DecidableEq

/-- `ClickMethod` enumeration. -/
inductive ClickMethod
  | invoke
  | toggle
  | selection_item
  | msaa
  | bm_click
  | focus_tap
deriving DecidableEq

/-- Failure modes of `UIClickEngine.click`: the two `RuntimeError`s it raises itself,
and an uncaught exception escaping from the `focus_tap` fallback. -/
inductive ClickError
  | disabledElement
  | unresolved
  | propagated (msg : String)
deriving DecidableEq

/-- The fixed `resolution_order` tuple of `UIClickEngine.click`. -/
def resolution_order (e : UIElementHandle) : List (ClickMethod × StrategyResult) :=
  [(ClickMethod.invoke, e.invoke),
   (ClickMethod.toggle, e.toggle),
   (ClickMethod.selection_item, e.select),
   (ClickMethod.msaa, e.msaa_default_action),
   (ClickMethod.bm_click, e.send_bm_click)]

/-- The `for method, action in resolution_order` loop: an exception or falsy result
advances to the next strategy; a truthy result resolves. -/
def resolve_click : List (ClickMethod × StrategyResult) → Option ClickMethod
  | [] => none
  | (m, StrategyResult.ok true) :: _ => some m
  | (_, StrategyResult.ok false) :: rest => resolve_click rest
  | (_, StrategyResult.exc _) :: rest => resolve_click rest

/-- `UIClickEngine` configuration. -/
structure UIClickEngine where
  allow_focus_tap : Bool

/-- `UIClickEngine.click`.  Note that the `try`/`except` wraps only the primary
strategies: an exception raised by the `focus_tap` fallback propagates as-is. -/
def UIClickEngine.click (eng : UIClickEngine) (e : UIElementHandle) :
    Except ClickError ClickMethod :=
  if !e.is_enabled then Except.error ClickError.disabledElement
  else
    match resolve_click (resolution_order e) with
    | some m => Except.ok m
    | none =>
      if eng.allow_focus_tap then
        match e.focus_tap with
        | StrategyResult.ok true => Except.ok ClickMethod.focus_tap
        | StrategyResult.ok false => Except.error ClickError.unresolved
        | StrategyResult.exc msg => Except.error (ClickError.propagated msg)
      else Except.error ClickError.unresolved

/-- A strategy invocation "fails" when it raises or returns a falsy result. -/
def strategy_fails (r : StrategyResult) : Prop := r ≠ StrategyResult.ok true

instance (r : StrategyResult) : Decidable (strategy_fails r) :=
  inferInstanceAs (Decidable (r ≠ StrategyResult.ok true))

/-! ## Configuration schemas (`agent/schemas/config.py`, fields read by the registry) -/

/-- `WindowSchema`; only the field consulted by the registry operations is kept. -/
structure WindowSchema where
  single_instance : String        -- "detect" | "force" | "allow"
deriving DecidableEq

/-- `AppConfigSchema`; the fields consumed by `ApplicationRegistry` and
`ApplicationDefinition.build_launch_plan`. -/
structure AppConfigSchema where
  enabled : Bool
  path : Option String
  shell : Option String
  args : List String
  working_dir : Option String
  env : StrMap
  inherit_env : Bool
  window : WindowSchema
  presets : List (String × List String)
deriving DecidableEq

/-- `ApplicationDefinition`: a configured application (name + config). -/
structure ApplicationDefinition where
  name : String
  config : AppConfigSchema
deriving DecidableEq

/-! ## Application registry (`agent/apps/registry.py`) -/

/-- Launch command of a plan: a direct executable path plus argument vector, or a
shell command line.  In the shell case the source renders the merged argument list
into the command string with `shlex.join`; the serialization is elided and the
merged argument list kept structured. -/
inductive LaunchCommand
  | exec (path : String) (args : List String)
  | shellCmd (cmd : String) (args : List String)
deriving DecidableEq

/-- The tuple returned by `ApplicationDefinition.build_launch_plan`. -/
structure LaunchPlan where
  command : LaunchCommand
  env : StrMap
  use_shell : Bool
  cwd : Option String
deriving DecidableEq

/-- Errors raised by registry operations (`KeyError` for an unknown name; the
`RuntimeError`s for a disabled app, a `detect` conflict, and a missing running
record; `NotImplementedError` for an unsupported launch vector). -/
inductive RegistryError
  | unknownApplication (name : String)
  | appDisabled (name : String)
  | launchVectorUnsupported
  | alreadyRunning (name : String)
  | notRunning (name : String)
deriving DecidableEq

/-- `ApplicationDefinition.build_launch_plan`.  `host_env` stands for `os.environ`. -/
def ApplicationDefinition.build_launch_plan (d : ApplicationDefinition)
    (preset : Option String) (extra_args : Option (List String))
    (env_overrides : Option StrMap) (inherit_env : Option Bool)
    (working_dir : Option String) (host_env : StrMap) :
    Except RegistryError LaunchPlan :=
  if !(py_truthy_str d.config.path || py_truthy_str d.config.shell) then
    Except.error RegistryError.launchVectorUnsupported
  else
    let args := d.config.args
    let args := match preset with
      | some p => if !p.isEmpty then args ++ (alist_get d.config.presets p).getD [] else args
      | none => args
    let args := match extra_args with
      | some extra => if !extra.isEmpty then args ++ extra else args
      | none => args
    let cwd := match working_dir with
      | some w => if !w.isEmpty then some w else d.config.working_dir
      | none => d.config.working_dir
    let inherit := match inherit_env with
      | some b => b
      | none => d.config.inherit_env
    let env : StrMap := []
    let env := if inherit then dict_update env host_env else env
    let env := dict_update env d.config.env
    let env := match env_overrides with
      | some ov => if !ov.isEmpty then dict_update env ov else env
      | none => env
    if py_truthy_str d.config.path then
      Except.ok { command := LaunchCommand.exec (d.config.path.getD "") args,
                  env := env, use_shell := false, cwd := cwd }
    else
      Except.ok { command := LaunchCommand.shellCmd (d.config.shell.getD "") args,
                  env := env, use_shell := true, cwd := cwd }

/-- The preset contribution to a merged argument list: the configured preset
argument set for a truthy preset name ("preset args"), else nothing. -/
def preset_args (d : ApplicationDefinition) (preset : Option String) : List String :=
  match preset with
  | some p => if !p.isEmpty then (alist_get d.config.presets p).getD [] else []
  | none => []

/-- One window from a `snapshot_windows` query (`WindowRecord` fields the registry
logic reads; title/class/process-name/timestamps are carried along in the source
but never branched on). -/
structure WindowSnap where
  hwnd : Nat
  pid : Nat
  is_visible : Bool
  is_minimized : Bool
deriving DecidableEq

/-- The OS layer as observed through `window_manager` and `Popen.poll`:
`proc_alive` is keyed by the record's opaque instance id (each record owns one
process handle), and `windows_for` is `snapshot_windows(record.definition)`,
keyed by the definition (= application) name. -/
structure OsOracle where
  proc_alive : String → Bool
  windows_for : String → List WindowSnap

/-- `ApplicationProcess`: one launched record.  `windows` is the cached window
map (refreshed from the OS on every query); timestamps other than
`last_focused_at` are not modelled. -/
structure ApplicationProcess where
  app : String
  instance_id : String
  pid : Option Nat
  windows : List WindowSnap
  last_focused_at : Option Nat
deriving DecidableEq

/-- `ApplicationRegistry` state: configured definitions, the per-name running
lists, and the registry-wide instance-id table. -/
structure ApplicationRegistry where
  apps : List (String × AppConfigSchema)
  running : List (String × List ApplicationProcess)
  instances : List (String × ApplicationProcess)
deriving DecidableEq

/-- `ApplicationRegistry._update_windows`: re-query the OS for windows matching the
record's definition (visible-only when requested) and refresh the cached map; when
any window matched, the record's pid is updated to the first-seen window's pid. -/
def update_windows (os : OsOracle) (require_visible : Bool) (r : ApplicationProcess) :
    ApplicationProcess :=
  let ws := (os.windows_for r.app).filter (fun w => !require_visible || w.is_visible)
  match ws with
  | [] => { r with windows := [] }
  | w :: rest => { r with windows := w :: rest, pid := some w.pid }

/-- `ApplicationProcess.has_live_process` (`self.process.poll() is None`). -/
def has_live_process (os : OsOracle) (r : ApplicationProcess) : Bool :=
  os.proc_alive r.instance_id

/-- The liveness test of `_purge_stopped` applied to a freshly refreshed record:
`has_process or has_window`. -/
def record_alive (os : OsOracle) (r : ApplicationProcess) : Bool :=
  has_live_process os r || !r.windows.isEmpty

/-- Mirror the in-place mutation of a record object that is shared between
`_running[name]` and `_instances`: replace it (by instance id) wherever it is
currently referenced, without inserting it anywhere new. -/
def store_record (reg : ApplicationRegistry) (r : ApplicationProcess) :
    ApplicationRegistry :=
  { reg with
    running := (match alist_get reg.running r.app with
      | none => reg.running
      | some records =>
        alist_set reg.running r.app
          (records.map (fun x => if x.instance_id = r.instance_id then r else x))),
    instances := alist_replace reg.instances r.instance_id r }

/-- `ApplicationRegistry._purge_stopped`: refresh every record for `name`, keep
those with a live process or at least one window, and drop the dead ones from the
instance table; an emptied running list is removed from the dict. -/
def purge_stopped (reg : ApplicationRegistry) (os : OsOracle) (name : String) :
    ApplicationRegistry :=
  match alist_get reg.running name with
  | none => reg
  | some records =>
    if records.isEmpty then reg
    else
      let refreshed := records.map (update_windows os false)
      let alive := refreshed.filter (fun r => record_alive os r)
      let dead := refreshed.filter (fun r => !(record_alive os r))
      let insts := dead.foldl (fun m r => alist_remove m r.instance_id) reg.instances
      let insts := alive.foldl (fun m r => alist_replace m r.instance_id r) insts
      if alive.isEmpty then
        { reg with running := alist_remove reg.running name, instances := insts }
      else
        { reg with running := alist_set reg.running name alive, instances := insts }

/-- `ApplicationRegistry._remove_inactive_records`: identical reconciliation with
the liveness test written `record.windows or record.has_live_process()`. -/
def remove_inactive_records (reg : ApplicationRegistry) (os : OsOracle) (name : String) :
    ApplicationRegistry :=
  match alist_get reg.running name with
  | none => reg
  | some records =>
    if records.isEmpty then reg
    else
      let refreshed := records.map (update_windows os false)
      let kept := refreshed.filter (fun r => !r.windows.isEmpty || has_live_process os r)
      let dropped := refreshed.filter (fun r => !(!r.windows.isEmpty || has_live_process os r))
      let insts := dropped.foldl (fun m r => alist_remove m r.instance_id) reg.instances
      let insts := kept.foldl (fun m r => alist_replace m r.instance_id r) insts
      if kept.isEmpty then
        { reg with running := alist_remove reg.running name, instances := insts }
      else
        { reg with running := alist_set reg.running name kept, instances := insts }

/-- The running records for `name` that survive a reconciliation pass against the
OS state `os` (each refreshed in place), i.e. the "live records" of the spec. -/
def live_records (reg : ApplicationRegistry) (os : OsOracle) (name : String) :
    List ApplicationProcess :=
  (((alist_get reg.running name).getD []).map (update_windows os false)).filter
    (fun r => record_alive os r)

/-- `ApplicationRegistry.get`: `KeyError` on an unregistered name. -/
def ApplicationRegistry.get (reg : ApplicationRegistry) (name : String) :
    Except RegistryError AppConfigSchema :=
  match alist_get reg.apps name with
  | none => Except.error (RegistryError.unknownApplication name)
  | some cfg => Except.ok cfg

/-- `ApplicationRegistry.start`.  Spawning is external: `new_instance_id` stands for
the generated `os.urandom` id and `spawn_pid` for `Popen.pid`; `os_after_kill` is
the OS state after the best-effort terminations of the `single_instance=force`
branch (unused on the other paths).  The mutations performed before a raise
persist, so the registry state is returned alongside the outcome. -/
def ApplicationRegistry.start (reg : ApplicationRegistry) (os os_after_kill : OsOracle)
    (name : String) (preset : Option String) (args : Option (List String))
    (env : Option StrMap) (inherit_env : Option Bool) (working_dir : Option String)
    (host_env : StrMap) (new_instance_id : String) (spawn_pid : Nat) :
    ApplicationRegistry × Except RegistryError ApplicationProcess :=
  match alist_get reg.apps name with
  | none => (reg, Except.error (RegistryError.unknownApplication name))
  | some cfg =>
    if !cfg.enabled then (reg, Except.error (RegistryError.appDisabled name))
    else
      let reg := purge_stopped reg os name
      let reg := remove_inactive_records reg os name
      let policy := cfg.window.single_instance
      let running := (alist_get reg.running name).getD []
      if policy = "detect" && !running.isEmpty then
        (reg, Except.error (RegistryError.alreadyRunning name))
      else
        let reg := if policy = "force" && !running.isEmpty then
            -- each existing record is force-killed (external effect), then the
            -- stopped records are purged against the post-kill OS state
            purge_stopped reg os_after_kill name
          else reg
        match (ApplicationDefinition.mk name cfg).build_launch_plan preset args env
            inherit_env working_dir host_env with
        | Except.error e => (reg, Except.error e)
        | Except.ok _plan =>
          let record : ApplicationProcess :=
            { app := name, instance_id := new_instance_id, pid := some spawn_pid,
              windows := [], last_focused_at := none }
          -- immediately capture visible windows; when any was found the record's
          -- pid is taken from the first-seen window (done inside update_windows)
          let record := update_windows os true record
          let reg := { reg with
            running := alist_set reg.running name
              (((alist_get reg.running name).getD []) ++ [record]),
            instances := alist_set reg.instances new_instance_id record }
          (reg, Except.ok record)

/-- A `target` argument as the Python call sites supply it: `None`, a string, or an
integer pid (other types reach the `ValueError` branch and are not representable). -/
inductive PyTarget
  | noTarget
  | ofStr (s : String)
  | ofNat (n : Nat)
deriving DecidableEq

/-- The re-entry of `_select_record` for a pid target (`int(target)` after an
all-digits string): purge again, re-fetch the records, and search by pid — the
steps the recursive Python call performs for an integer target. -/
def select_record_pid (reg : ApplicationRegistry) (os : OsOracle) (name : String)
    (n : Nat) : ApplicationRegistry × Option ApplicationProcess :=
  let reg2 := purge_stopped reg os name
  let records := (alist_get reg2.running name).getD []
  if records.isEmpty then (reg2, none)
  else (reg2, records.find? (fun r => r.pid = some n))

/-- `ApplicationRegistry._select_record`: purge, then resolve `latest`/`first`/pid/
instance-id targets; an all-digits string is re-dispatched as a pid (via
`select_record_pid`, the unfolding of the source's recursive call). -/
def select_record (reg : ApplicationRegistry) (os : OsOracle) (name : String)
    (target : PyTarget) : ApplicationRegistry × Option ApplicationProcess :=
  let reg2 := purge_stopped reg os name
  let records := (alist_get reg2.running name).getD []
  if records.isEmpty then (reg2, none)
  else if target = PyTarget.noTarget ∨ target = PyTarget.ofStr "latest" then
    (reg2, records.getLast?)
  else if target = PyTarget.ofStr "first" then (reg2, records.head?)
  else
    match target with
    | PyTarget.ofNat n => (reg2, records.find? (fun r => r.pid = some n))
    | PyTarget.ofStr s =>
      if py_isdigit s then select_record_pid reg2 os name (s.toNat?.getD 0)
      else (reg2, alist_get reg2.instances s)
    | PyTarget.noTarget => (reg2, records.getLast?)

/-- `ApplicationRegistry._ensure_running_record`: refresh the selected record and
require a live process or window, purging and failing with a not-running error
otherwise.  (The in-place refresh is written back through `store_record`.) -/
def ensure_running_record (reg : ApplicationRegistry) (os : OsOracle) (name : String)
    (target : PyTarget) : ApplicationRegistry × Except RegistryError ApplicationProcess :=
  match select_record reg os name target with
  | (reg, none) => (reg, Except.error (RegistryError.notRunning name))
  | (reg, some r) =>
    let r := update_windows os false r
    let reg := store_record reg r
    if has_live_process os r || !r.windows.isEmpty then (reg, Except.ok r)
    else
      (purge_stopped reg os name, Except.error (RegistryError.notRunning name))

/-- `ApplicationRegistry._primary_window`: refresh, then the first visible
non-minimized window, else the first known window. -/
def primary_window (os : OsOracle) (r : ApplicationProcess) :
    Option Nat × ApplicationProcess :=
  let r := update_windows os false r
  let hw := match r.windows.find? (fun w => w.is_visible && !w.is_minimized) with
    | some w => some w.hwnd
    | none => r.windows.head?.map (fun w => w.hwnd)
  (hw, r)

/-- `ApplicationRegistry.focus`: resolve a live record, bring its primary window to
the foreground (external effect) and stamp `last_focused_at`. -/
def ApplicationRegistry.focus (reg : ApplicationRegistry) (os : OsOracle) (name : String)
    (target : PyTarget) (now : Nat) :
    ApplicationRegistry × Except RegistryError ApplicationProcess :=
  match ensure_running_record reg os name target with
  | (reg, Except.error e) => (reg, Except.error e)
  | (reg, Except.ok r) =>
    let (_hwnd, r) := primary_window os r
    -- bring_to_foreground(hwnd) is an external OS-layer action
    let r := { r with last_focused_at := some now }
    let reg := store_record reg r
    (reg, Except.ok r)

/-- Common body of `minimize` / `maximize` / `restore`: resolve a live record and
issue the corresponding `show_window` command (an external OS-layer action). -/
def window_op (reg : ApplicationRegistry) (os : OsOracle) (name : String)
    (target : PyTarget) : ApplicationRegistry × Except RegistryError ApplicationProcess :=
  match ensure_running_record reg os name target with
  | (reg, Except.error e) => (reg, Except.error e)
  | (reg, Except.ok r) =>
    let (_hwnd, r) := primary_window os r
    let reg := store_record reg r
    (reg, Except.ok r)

/-- `ApplicationRegistry.minimize`. -/
def ApplicationRegistry.minimize (reg : ApplicationRegistry) (os : OsOracle)
    (name : String) (target : PyTarget) :
    ApplicationRegistry × Except RegistryError ApplicationProcess :=
  window_op reg os name target

/-- `ApplicationRegistry.maximize`. -/
def ApplicationRegistry.maximize (reg : ApplicationRegistry) (os : OsOracle)
    (name : String) (target : PyTarget) :
    ApplicationRegistry × Except RegistryError ApplicationProcess :=
  window_op reg os name target

/-- `ApplicationRegistry.restore`. -/
def ApplicationRegistry.restore (reg : ApplicationRegistry) (os : OsOracle)
    (name : String) (target : PyTarget) :
    ApplicationRegistry × Except RegistryError ApplicationProcess :=
  window_op reg os name target

/-- `ApplicationRegistry._select_records`: latest record only, or all. -/
def select_records (reg : ApplicationRegistry) (os : OsOracle) (name : String)
    (all_instances : Bool) : ApplicationRegistry × List ApplicationProcess :=
  let reg := purge_stopped reg os name
  let records := (alist_get reg.running name).getD []
  if records.isEmpty then (reg, [])
  else if all_instances then (reg, records)
  else (reg, records.getLast?.toList)

/-- `ApplicationRegistry.close`: graceful termination of the selected records
(external effects; `_timeout`/`_force` only shape the external escalation), their
window caches cleared, then a purge against the post-termination OS state. -/
def ApplicationRegistry.close (reg : ApplicationRegistry) (os os_after : OsOracle)
    (name : String) (_timeout : Nat) (_force : Bool) (all_instances : Bool) :
    ApplicationRegistry × Except RegistryError Unit :=
  match select_records reg os name all_instances with
  | (reg, []) => (reg, Except.error (RegistryError.notRunning name))
  | (reg, records@(_ :: _)) =>
    let reg := records.foldl (fun rg r => store_record rg { r with windows := [] }) reg
    (purge_stopped reg os_after name, Except.ok ())

/-- `ApplicationRegistry.kill`: unconditional hard termination (external effects),
window caches cleared, then a purge against the post-kill OS state. -/
def ApplicationRegistry.kill (reg : ApplicationRegistry) (os os_after : OsOracle)
    (name : String) (all_instances : Bool) :
    ApplicationRegistry × Except RegistryError Unit :=
  match select_records reg os name all_instances with
  | (reg, []) => (reg, Except.error (RegistryError.notRunning name))
  | (reg, records@(_ :: _)) =>
    let reg := records.foldl (fun rg r => store_record rg { r with windows := [] }) reg
    (purge_stopped reg os_after name, Except.ok ())

/-- `ApplicationRegistry.is_running`: reconcile first, then report. -/
def ApplicationRegistry.is_running (reg : ApplicationRegistry) (os : OsOracle)
    (name : String) : ApplicationRegistry × Bool :=
  let reg := purge_stopped reg os name
  (reg, !(((alist_get reg.running name).getD []).isEmpty))

/-! ## State store activity trail (`agent/state/store.py`) and recipe runner
(`agent/runner/steps.py`) -/

/-- Insert into a `str_lt`-ascending list (Python `sorted` on strings). -/
def insert_sorted (s : String) : List String → List String
  | [] => [s]
  | x :: rest => if str_lt s x then s :: x :: rest else x :: insert_sorted s rest

/-- `sorted(...)` for a list of strings. -/
def sort_strings : List String → List String
  | [] => []
  | x :: rest => insert_sorted x (sort_strings rest)

/-- `ActivityRecord`; the metadata dict carries the step index and the sorted
payload key set; start/completion timestamps are not modelled. -/
structure ActivityRecord where
  name : String
  status : String
  step_index : Nat
  payload_keys : List String
  error : Option String
deriving DecidableEq

/-- The activity-trail portion of `StateStore` (`history_limit` = 0 means
unbounded, mirroring the `if self._history_limit` truthiness test). -/
structure StateStore where
  current_activity : Option ActivityRecord
  activity_history : List ActivityRecord
  history_limit : Nat
deriving DecidableEq

/-- `StateStore._begin_activity`. -/
def begin_activity (st : StateStore) (r : ActivityRecord) : StateStore :=
  { st with current_activity := some r }

/-- `StateStore._end_activity`: stamp the final status/error, append to the capped
history (oldest evicted first) and clear the current record.  The source raises a
`RuntimeError` when the finished record is not the current one; the runner always
finishes the record it has just begun, so that branch (modelled as a no-op here)
is unreachable from `run_recipe`. -/
def end_activity (st : StateStore) (r : ActivityRecord) (status : String)
    (error : Option String) : StateStore :=
  if st.current_activity = some r then
    let fin := { r with status := status, error := error }
    let hist := st.activity_history ++ [fin]
    let hist := if st.history_limit ≠ 0 ∧ st.history_limit < hist.length then
        hist.drop (hist.length - st.history_limit)
      else hist
    { st with activity_history := hist, current_activity := none }
  else st

/-- A recipe execution context / step payload: a string-keyed Python dict whose
values the runner itself never inspects (opaque, modelled as strings). -/
abbrev Ctx := List (String × String)

/-- A step handler: consumes (payload, context) and either returns the mutated
context or raises with a message. -/
abbrev StepHandler := Ctx → Ctx → Except String Ctx

/-- One element of a recipe's `steps` list, after YAML decoding: a well-formed
single-key mapping with a mapping (or empty) payload, or one of the structural
violations `run_recipe` rejects. -/
inductive RawStep
  | well (name : String) (payload : Ctx)
  | notMapping
  | multiKey
  | payloadNotMapping (name : String)
deriving DecidableEq

/-- The activity record begun for a step (status `running`, tagged with the step
index and the sorted payload keys). -/
def step_record (name : String) (payload : Ctx) (idx : Nat) : ActivityRecord :=
  { name := name, status := "running", step_index := idx,
    payload_keys := sort_strings (payload.map Prod.fst), error := none }

/-- The step loop of `RecipeRunner.run_recipe`.  `handlers` models the
`getattr(self, "step_" + name.replace(".", "_"))` dispatch table; an exception
from a handler marks the wrapped activity failed and re-raises, aborting the
remaining steps. -/
def run_steps (handlers : String → Option StepHandler) :
    List RawStep → Nat → Ctx → StateStore → StateStore × Except String Ctx
  | [], _, ctx, st => (st, Except.ok ctx)
  | step :: rest, idx, ctx, st =>
    match step with
    | RawStep.notMapping =>
      (st, Except.error ("Step " ++ toString idx ++ " must be a mapping."))
    | RawStep.multiKey =>
      (st, Except.error ("Step " ++ toString idx ++ " must contain exactly one instruction."))
    | RawStep.payloadNotMapping name =>
      (match handlers name with
       | none => (st, Except.error ("Unsupported step '" ++ name ++ "'"))
       | some _ => (st, Except.error ("Step " ++ name ++ " payload must be a mapping.")))
    | RawStep.well name payload =>
      match handlers name with
      | none => (st, Except.error ("Unsupported step '" ++ name ++ "'"))
      | some h =>
        let record := step_record name payload idx
        let st := begin_activity st record
        match h payload ctx with
        | Except.error msg =>
          (end_activity st record "failed" (some msg), Except.error msg)
        | Except.ok ctx2 =>
          run_steps handlers rest (idx + 1) ctx2 (end_activity st record "succeeded" none)

/-- `RecipeRunner.run_recipe` on an already-decoded `steps` list (step indices
start at 1). -/
def run_recipe (handlers : String → Option StepHandler) (steps : List RawStep)
    (context : Ctx) (st : StateStore) : StateStore × Except String Ctx :=
  run_steps handlers steps 1 context st

/-- A prefix of steps that runs through successfully: each step is a well-formed
single-instruction mapping whose handler exists and returns the next context. -/
inductive StepsSucceed (handlers : String → Option StepHandler) :
    List RawStep → Ctx → Ctx → Prop
  | nil (ctx : Ctx) : StepsSucceed handlers [] ctx ctx
  | cons (name : String) (payload : Ctx) (h : StepHandler) (ctx ctx2 ctx3 : Ctx)
      (rest : List RawStep) :
      handlers name = some h →
      h payload ctx = Except.ok ctx2 →
      StepsSucceed handlers rest ctx2 ctx3 →
      StepsSucceed handlers (RawStep.well name payload :: rest) ctx ctx3

/-- The finished record of a step whose handler raised `msg`. -/
def failed_record (name : String) (payload : Ctx) (idx : Nat) (msg : String) :
    ActivityRecord :=
  { step_record name payload idx with status := "failed", error := some msg }

/-- The activity records a successful prefix leaves behind, in step order. -/
def succeeded_records : List RawStep → Nat → List ActivityRecord
  | [], _ => []
  | RawStep.well name payload :: rest, idx =>
    { step_record name payload idx with status := "succeeded" }
      :: succeeded_records rest (idx + 1)
  | _ :: rest, idx => succeeded_records rest (idx + 1)

/-! ## Intent watcher (`agent/runner/intent_watcher.py`) -/

/-- A YAML scalar/collection as the watcher's validation logic distinguishes them:
only truthiness and being-a-mapping are branched on, so collection contents other
than string-keyed mappings are reduced to what those tests need. -/
inductive PyVal
  | str (s : String)
  | num (n : Int)
  | dict (entries : Ctx)
  | listv (len : Nat)
  | noneV
deriving DecidableEq

/-- Python truthiness for the modelled values. -/
def py_truthy : PyVal → Bool
  | PyVal.str s => !s.isEmpty
  | PyVal.num n => n != 0
  | PyVal.dict e => !e.isEmpty
  | PyVal.listv n => n != 0
  | PyVal.noneV => false

/-- A successfully decoded intent file (`yaml.safe_load` returned a mapping);
only the two fields the watcher reads. -/
structure IntentDoc where
  intent : Option PyVal
  args : Option PyVal
deriving DecidableEq

/-- `IntentMapping`: the recipe path an intent name is mapped to. -/
structure IntentMapping where
  recipe : String
deriving DecidableEq

/-- The failure modes of `_process_intent` (and of the loader it calls). -/
inductive IntentError
  | loadFailed (msg : String)
  | missingIntentField
  | intentNotMapped
  | argsNotMapping
  | recipeNotFound
  | recipeFailed (msg : String)
deriving DecidableEq

/-- `IntentWatcher._process_intent`.  `load_result` abstracts
`_load_intent_payload` (bounded read retries against the filesystem);
`recipe_exists` abstracts `Path.exists`; `run_recipe_outcome` abstracts the
recipe runner collaborator.  On success the file is renamed into the archive
directory under its original `file_name`, which is returned; on error the
exception propagates to `on_created` (which logs it) and the file stays in the
watch directory. -/
def process_intent (mappings : List (String × IntentMapping))
    (recipe_exists : String → Bool)
    (run_recipe_outcome : String → Ctx → Except String Unit)
    (file_name : String) (load_result : Except String IntentDoc) :
    Except IntentError String :=
  match load_result with
  | Except.error msg => Except.error (IntentError.loadFailed msg)
  | Except.ok data =>
    match data.intent with
    | none => Except.error IntentError.missingIntentField
    | some intentVal =>
      if !py_truthy intentVal then Except.error IntentError.missingIntentField
      else
        match intentVal with
        | PyVal.str intent_name =>
          (match alist_get mappings intent_name with
           | none => Except.error IntentError.intentNotMapped
           | some mapping =>
             let context := match data.args with
               | none => PyVal.dict []
               | some a => if py_truthy a then a else PyVal.dict []
             match context with
             | PyVal.dict ctx =>
               if !(recipe_exists mapping.recipe) then
                 Except.error IntentError.recipeNotFound
               else
                 match run_recipe_outcome mapping.recipe ctx with
                 | Except.error msg => Except.error (IntentError.recipeFailed msg)
                 | Except.ok _ => Except.ok file_name
             | _ => Except.error IntentError.argsNotMapping)
        | _ =>
          -- a truthy non-string intent value can never be a key of the
          -- string-keyed mapping table
          Except.error IntentError.intentNotMapped

/-- The run context the watcher derives from the `args` field under the amended
contract: absent or falsy args collapse to the empty mapping, and a truthy value
must be a mapping. -/
def watcher_context (doc : IntentDoc) : Option Ctx :=
  match doc.args with
  | none => some []
  | some a =>
    if py_truthy a then
      (match a with
       | PyVal.dict e => some e
       | _ => none)
    else some []

/-- The success condition for processing one intent file, phrased after the
amended claim: parsing succeeded, the intent field holds a truthy string name
mapped in the table, the (possibly defaulted) args form a mapping, the mapped
recipe exists, and the recipe run succeeds. -/
def intent_success_spec (mappings : List (String × IntentMapping))
    (recipe_exists : String → Bool)
    (run_recipe_outcome : String → Ctx → Except String Unit)
    (load_result : Except String IntentDoc) : Prop :=
  ∃ doc nm m args_ctx,
    load_result = Except.ok doc ∧
    doc.intent = some (PyVal.str nm) ∧ nm ≠ "" ∧
    alist_get mappings nm = some m ∧
    watcher_context doc = some args_ctx ∧
    recipe_exists m.recipe = true ∧
    run_recipe_outcome m.recipe args_ctx = Except.ok ()

/-! ## Chat command grammar (`agent/runner/chat_commands.py`)

`_COMMAND_PATTERN` and `_ARG_PATTERN` are deterministic regexes (every
quantified class is disjoint from what must follow it), so `finditer` is
embedded as a left-to-right scanner that attempts a match at each position and
skips past each match found. -/

/-- `ChatCommand`: parsed name (lowercased), argument dict, and matched source text. -/
structure ChatCommand where
  name : String
  args : StrMap
  source : String
deriving DecidableEq

/-- Case-insensitive match of a (lowercase) literal; returns the remaining input. -/
def match_ci : List Char → List Char → Option (List Char)
  | [], rest => some rest
  | _ :: _, [] => none
  | l :: ls, c :: cs => if c.toLower = l then match_ci ls cs else none

/-- `ChatCommandParser._strip_quotes`. -/
def strip_quotes (v : String) : String :=
  if v.isEmpty then v
  else if (v.front = '"' && v.back = '"') || (v.front = '\'' && v.back = '\'') then
    (v.drop 1).dropRight 1
  else v

/-- Try `_ARG_PATTERN` at the head of the input:
`key \s* = \s* ("..." | '...' | nonspace-run)`.  Returns the raw (unstripped)
value; quoted alternatives are tried before the bare-token fallback, as in the
regex alternation. -/
def try_arg_match (l : List Char) : Option ((String × String) × List Char) :=
  let keySplit := l.span is_name_char
  if keySplit.1.isEmpty then none
  else
    let rest2 := (keySplit.2.span py_isspace).2
    match rest2 with
    | '=' :: rest3 =>
      let rest4 := (rest3.span py_isspace).2
      let unquoted : Option ((String × String) × List Char) :=
        let valSplit := rest4.span (fun c => !py_isspace c)
        if valSplit.1.isEmpty then none
        else some ((String.mk keySplit.1, String.mk valSplit.1), valSplit.2)
      (match rest4 with
       | '"' :: rest5 =>
         let innerSplit := rest5.span (fun c => c ≠ '"')
         (match innerSplit.2 with
          | '"' :: rest6 =>
            some ((String.mk keySplit.1, String.mk ('"' :: innerSplit.1 ++ ['"'])), rest6)
          | _ => unquoted)
       | '\'' :: rest5 =>
         let innerSplit := rest5.span (fun c => c ≠ '\'')
         (match innerSplit.2 with
          | '\'' :: rest6 =>
            some ((String.mk keySplit.1, String.mk ('\'' :: innerSplit.1 ++ ['\''])), rest6)
          | _ => unquoted)
       | _ => unquoted)
    | _ => none

/-- `_ARG_PATTERN.finditer`: scan left to right, advancing one character past
failed positions (fuelled by the input length; every step consumes ≥ 1 char). -/
def scan_arg_pairs : Nat → List Char → List (String × String)
  | 0, _ => []
  | _, [] => []
  | fuel + 1, l@(_ :: rest) =>
    match try_arg_match l with
    | some (kv, rest2) => kv :: scan_arg_pairs fuel rest2
    | none => scan_arg_pairs fuel rest

/-- `ChatCommandParser._parse_args`: build the argument dict (keys lowercased,
values unquoted; later duplicates overwrite earlier ones). -/
def parse_args_chars (l : List Char) : StrMap :=
  (scan_arg_pairs (l.length + 1) l).foldl
    (fun d kv => alist_set d (lower_string kv.1) (strip_quotes kv.2)) []

/-- Try `_COMMAND_PATTERN` at the head of the input:
`\[ (agent|macro) \s* : name-run args-run \]` (case-insensitive). -/
def try_command_match (l : List Char) : Option (ChatCommand × List Char) :=
  match l with
  | '[' :: rest =>
    let afterPre := match match_ci ['a', 'g', 'e', 'n', 't'] rest with
      | some r => some (r, 5)
      | none => (match_ci ['m', 'a', 'c', 'r', 'o'] rest).map (fun r => (r, 5))
    match afterPre with
    | none => none
    | some (rest2, preLen) =>
      let spaceSplit := rest2.span py_isspace
      match spaceSplit.2 with
      | ':' :: rest4 =>
        let nameSplit := rest4.span is_name_char
        if nameSplit.1.isEmpty then none
        else
          let argSplit := nameSplit.2.span (fun c => c ≠ ']')
          match argSplit.2 with
          | ']' :: rest7 =>
            some ({ name := lower_string (String.mk nameSplit.1),
                    args := parse_args_chars argSplit.1,
                    source := String.mk ('[' :: rest.take preLen ++ spaceSplit.1 ++
                      ':' :: nameSplit.1 ++ argSplit.1 ++ [']']) }, rest7)
          | _ => none
      | _ => none
  | _ => none

/-- `_COMMAND_PATTERN.finditer` as a fuelled scanner. -/
def scan_commands : Nat → List Char → List ChatCommand
  | 0, _ => []
  | _, [] => []
  | fuel + 1, l@(_ :: rest) =>
    match try_command_match l with
    | some (cmd, rest2) => cmd :: scan_commands fuel rest2
    | none => scan_commands fuel rest

/-- `ChatCommandParser.parse`. -/
def chat_parse (transcript : String) : List ChatCommand :=
  scan_commands (transcript.data.length + 1) transcript.data

/-! ## Chat bridge (`agent/runner/chat_bridge.py`) -/

/-- The document serialized into one intent file (`args` omitted when empty,
mirroring `ChatCommand.to_intent_payload` and the router branch). -/
structure IntentPayload where
  intent : String
  args : Option StrMap
deriving DecidableEq

/-- `ChatCommand.to_intent_payload`. -/
def ChatCommand.to_intent_payload (c : ChatCommand) : IntentPayload :=
  { intent := c.name, args := if c.args.isEmpty then none else some c.args }

/-- `ChatIntentBridge` configuration: the intent→recipe mapping, whether a
manifest is configured, and the natural-language router (an excluded
collaborator, modelled as an oracle consulted only when no bracketed command was
found). -/
structure ChatIntentBridge where
  mappings : List (String × IntentMapping)
  manifest_configured : Bool
  route : String → Option (String × StrMap)

/-- `ChatIntentBridge.process_transcript`: number of intents emitted and the
payloads written (each `_write_intent` call writes exactly one uniquely named
file; filename allocation is external).  `list_intents` commands and the
router's `intent_list` resolve to an informational listing, not a file; commands
with unmapped names are logged and dropped. -/
def process_transcript (b : ChatIntentBridge) (transcript : String) :
    Nat × List IntentPayload :=
  let commands := chat_parse transcript
  if commands.isEmpty then
    if b.manifest_configured then
      match b.route transcript with
      | some (intent_name, args) =>
        if intent_name = "intent_list" then (0, [])
        else
          (match alist_get b.mappings intent_name with
           | none => (0, [])
           | some _ =>
             let payload : IntentPayload :=
               { intent := intent_name,
                 args := if args.isEmpty then none else some args }
             (1, [payload]))
      | none => (0, [])
    else (0, [])
  else
    commands.foldl (fun acc c =>
      if c.name = "list_intents" then acc
      else match alist_get b.mappings c.name with
        | none => acc
        | some _ => (acc.1 + 1, acc.2 ++ [c.to_intent_payload])) (0, [])

/-! ## OCR intent scanner (`agent/vision/ocr_intents.py`) -/

/-- One `_MARKER_PATTERN` match: the optional numeric action id (`""` when
absent; `\d+` never needs stripping) and the raw bracketed command text. -/
structure Marker where
  action_id : String
  command : String
deriving DecidableEq

/-- Try `_MARKER_PATTERN` at the head of the input:
`(\*#intent#\*|#intent#) [\s+:-]* (\d+ [\s+:-]*)? \[ [^\]]+ \]`. -/
def try_marker_match (l : List Char) : Option (Marker × List Char) :=
  let afterLit := match match_ci ['*', '#', 'i', 'n', 't', 'e', 'n', 't', '#', '*'] l with
    | some r => some r
    | none => match_ci ['#', 'i', 'n', 't', 'e', 'n', 't', '#'] l
  match afterLit with
  | none => none
  | some rest =>
    let rest2 := (rest.span is_marker_sep).2
    let digitSplit := rest2.span Char.isDigit
    let rest4 := if digitSplit.1.isEmpty then rest2 else (digitSplit.2.span is_marker_sep).2
    match rest4 with
    | '[' :: rest5 =>
      let cmdSplit := rest5.span (fun c => c ≠ ']')
      if cmdSplit.1.isEmpty then none
      else
        match cmdSplit.2 with
        | ']' :: rest7 =>
          some ({ action_id := String.mk digitSplit.1, command := String.mk cmdSplit.1 }, rest7)
        | _ => none
    | _ => none

/-- `_MARKER_PATTERN.finditer` as a fuelled scanner. -/
def scan_markers : Nat → List Char → List Marker
  | 0, _ => []
  | _, [] => []
  | fuel + 1, l@(_ :: rest) =>
    match try_marker_match l with
    | some (m, rest2) => m :: scan_markers fuel rest2
    | none => scan_markers fuel rest

/-- All marker matches of a captured screen text. -/
def extract_markers (text : String) : List Marker :=
  scan_markers (text.data.length + 1) text.data

/-- Substring containment (`needle in haystack`). -/
def chars_has_run : List Char → List Char → Bool
  | _, [] => true
  | [], _ :: _ => false
  | c :: cs, n :: ns => (c = n && chars_matches_here cs ns) || chars_has_run cs (n :: ns)
where
  chars_matches_here : List Char → List Char → Bool
    | _, [] => true
    | [], _ :: _ => false
    | c :: cs, n :: ns => c = n && chars_matches_here cs ns

/-- `needle in haystack` for strings. -/
def str_has_sub (hay needle : String) : Bool :=
  needle.isEmpty || chars_has_run hay.data needle.data

/-- Ascending sort on (key, value) pairs — Python's `sorted` on tuples
(lexicographic: key first, then value). -/
def pair_lt (p q : String × String) : Bool :=
  str_lt p.1 q.1 || (p.1 = q.1 && str_lt p.2 q.2)

/-- Insertion step for `sort_pairs`. -/
def insert_pair (p : String × String) : StrMap → StrMap
  | [] => [p]
  | q :: rest => if pair_lt p q then p :: q :: rest else q :: insert_pair p rest

/-- `sorted(args.items())`. -/
def sort_pairs : StrMap → StrMap
  | [] => []
  | p :: rest => insert_pair p (sort_pairs rest)

/-- A deduplication key: `(command.name, tuple(sorted(command.args.items())))`. -/
abbrev FiredKey := String × StrMap

/-- `OCRIntentScanner` dedup state: the bounded FIFO deque (head = oldest, with
its `maxlen`) and the mirroring membership set (kept as an insertion-ordered
duplicate-free list). -/
structure OCRIntentScanner where
  fired_history : List FiredKey
  fired_lookup : List FiredKey
  maxlen : Nat
deriving DecidableEq

/-- `OCRIntentScanner._record_fired`: when the deque is full, evict its oldest
entry (discarding it from the lookup set), then append the new key to both. -/
def record_fired (st : OCRIntentScanner) (key : FiredKey) : OCRIntentScanner :=
  let st :=
    if st.maxlen ≠ 0 ∧ st.fired_history.length = st.maxlen then
      match st.fired_history with
      | [] => st
      | expired :: restHist =>
        { st with fired_history := restHist,
                  fired_lookup := st.fired_lookup.filter (fun k => decide (k ≠ expired)) }
    else st
  { st with fired_history := st.fired_history ++ [key],
            fired_lookup :=
              if key ∈ st.fired_lookup then st.fired_lookup else st.fired_lookup ++ [key] }

/-- The `payload_command` built for a marker: the stripped command text, with
` action_id=<id>` folded in when an action id was captured and the text does not
already mention one. -/
def marker_payload_command (m : Marker) : String :=
  let command_text := py_strip m.command
  if !m.action_id.isEmpty && !(str_has_sub (lower_string command_text) "action_id=") then
    command_text ++ " action_id=" ++ m.action_id
  else command_text

/-- The synthetic transcript handed to the chat bridge for a marker. -/
def marker_transcript (m : Marker) : String :=
  "[macro:" ++ marker_payload_command m ++ "]"

/-- The dedup key a marker parses to (when its transcript yields a command). -/
def marker_key (m : Marker) : Option FiredKey :=
  (chat_parse (marker_transcript m)).head?.map (fun c => (c.name, sort_pairs c.args))

/-- Result of one `process_text` call: the emission count, the dedup state, the
intent payloads written through the bridge, and (instrumentation for the
re-attempt property) the transcripts forwarded to the bridge. -/
structure ScanOutcome where
  emitted : Nat
  state : OCRIntentScanner
  written : List IntentPayload
  sent : List String
deriving DecidableEq

/-- The body of `process_text`'s marker loop for one match. -/
def process_marker (b : ChatIntentBridge) (acc : ScanOutcome) (m : Marker) :
    ScanOutcome :=
  let command_text := py_strip m.command
  if command_text.isEmpty then acc
  else
    let transcript := marker_transcript m
    match chat_parse transcript with
    | [] => acc
    | command :: _ =>
      let key : FiredKey := (command.name, sort_pairs command.args)
      if key ∈ acc.state.fired_lookup then acc
      else
        let res := process_transcript b transcript
        let acc := { acc with sent := acc.sent ++ [transcript],
                              written := acc.written ++ res.2 }
        if res.1 ≠ 0 then
          { acc with state := record_fired acc.state key, emitted := acc.emitted + 1 }
        else acc

/-- `OCRIntentScanner.process_text`. -/
def OCRIntentScanner.process_text (st : OCRIntentScanner) (b : ChatIntentBridge)
    (text : String) : ScanOutcome :=
  (extract_markers text).foldl (process_marker b)
    { emitted := 0, state := st, written := [], sent := [] }

/-! ## Lemmas, claim theorems, witnesses and counterexamples -/

/-! ## Basic lemmas about the dictionary model -/

theorem alist_get_set {α : Type} (m : List (String × α)) (k : String) (v : α) (k2 : String) :
    alist_get (alist_set m k v) k2 = if k = k2 then some v else alist_get m k2 := by
  induction m with
  | nil =>
    by_cases h : k = k2 <;> simp [alist_set, alist_get, h]
  | cons hd tl ih =>
    obtain ⟨k0, v0⟩ := hd
    by_cases h0 : k0 = k
    · subst h0
      by_cases h2 : k0 = k2 <;> simp [alist_set, alist_get, h2]
    · by_cases h2 : k0 = k2
      · subst h2
        have : ¬ k = k0 := fun h => h0 h.symm
        simp [alist_set, alist_get, h0, this]
      · simp [alist_set, alist_get, h0, h2, ih]

theorem alist_get_eq_none_of_not_mem {α : Type} (m : List (String × α)) (k : String)
    (h : k ∉ m.map Prod.fst) : alist_get m k = none := by
  induction m with
  | nil => rfl
  | cons hd tl ih =>
    obtain ⟨k0, v0⟩ := hd
    simp only [List.map_cons, List.mem_cons] at h
    push_neg at h
    have hk0 : k0 ≠ k := fun he => h.1 he.symm
    simp [alist_get, hk0, ih h.2]

theorem alist_get_update (b ov : StrMap) (k : String)
    (hnd : (ov.map Prod.fst).Nodup) :
    alist_get (dict_update b ov) k = opt_or (alist_get ov k) (alist_get b k) := by
  induction ov generalizing b with
  | nil => simp [dict_update, alist_get, opt_or]
  | cons hd tl ih =>
    obtain ⟨k0, v0⟩ := hd
    simp only [List.map_cons, List.nodup_cons] at hnd
    have step : dict_update b ((k0, v0) :: tl) = dict_update (alist_set b k0 v0) tl := rfl
    rw [step, ih _ hnd.2]
    by_cases h0 : k0 = k
    · subst h0
      have : alist_get tl k0 = none :=
        alist_get_eq_none_of_not_mem _ _ hnd.1
      simp [alist_get, this, opt_or, alist_get_set]
    · rw [alist_get_set]
      simp [alist_get, h0]

theorem alist_get_remove_ne {α : Type} (m : List (String × α)) (k k2 : String)
    (h : k ≠ k2) : alist_get (alist_remove m k) k2 = alist_get m k2 := by
  induction m with
  | nil => rfl
  | cons hd tl ih =>
    obtain ⟨k0, v0⟩ := hd
    by_cases h0 : k0 = k
    · subst h0
      simp [alist_remove, alist_get, h]
    · simp [alist_remove, alist_get, h0]
      by_cases h2 : k0 = k2 <;> simp [h2, ih]

theorem alist_get_replace_ne {α : Type} (m : List (String × α)) (k : String) (v : α)
    (k2 : String) (h : k ≠ k2) : alist_get (alist_replace m k v) k2 = alist_get m k2 := by
  induction m with
  | nil => rfl
  | cons hd tl ih =>
    obtain ⟨k0, v0⟩ := hd
    by_cases h0 : k0 = k
    · subst h0
      simp [alist_replace, alist_get, h]
    · by_cases h2 : k0 = k2
      · subst h2
        simp [alist_replace, alist_get, h0]
      · simp [alist_replace, alist_get, h0, h2, ih]

theorem resolve_click_cons_of_fails (m : ClickMethod) (r : StrategyResult)
    (rest : List (ClickMethod × StrategyResult)) (h : strategy_fails r) :
    resolve_click ((m, r) :: rest) = resolve_click rest := by
  match r with
  | StrategyResult.ok true => exact absurd rfl h
  | StrategyResult.ok false => rfl
  | StrategyResult.exc msg => rfl

theorem resolve_click_none (e : UIElementHandle)
    (h1 : strategy_fails e.invoke) (h2 : strategy_fails e.toggle)
    (h3 : strategy_fails e.select) (h4 : strategy_fails e.msaa_default_action)
    (h5 : strategy_fails e.send_bm_click) :
    resolve_click (resolution_order e) = none := by
  unfold resolution_order
  rw [resolve_click_cons_of_fails _ _ _ h1, resolve_click_cons_of_fails _ _ _ h2,
    resolve_click_cons_of_fails _ _ _ h3, resolve_click_cons_of_fails _ _ _ h4,
    resolve_click_cons_of_fails _ _ _ h5]
  rfl


/-- Claim C3 (counterexample to the claim as stated): an enabled element on which
all five primary strategies raise, with the fallback flag enabled and a fallback
that itself raises, makes `click` propagate the fallback's own exception instead
of raising the unresolved-interaction error the claim requires for every
non-returning outcome. -/
theorem C3_fallback_exception_counterexample :
    (UIClickEngine.mk true).click
      { identifier := "btn", is_enabled := true,
        invoke := StrategyResult.exc "e1", toggle := StrategyResult.exc "e2",
        select := StrategyResult.exc "e3", msaa_default_action := StrategyResult.exc "e4",
        send_bm_click := StrategyResult.exc "e5", focus_tap := StrategyResult.exc "boom" } =
      Except.error (ClickError.propagated "boom") ∧
    (Except.error (ClickError.propagated "boom") : Except ClickError ClickMethod) ≠
      Except.error ClickError.unresolved := by
  refine ⟨rfl, ?_⟩
  intro h
  simp at h

/-- Claim C3 (amended): for an element reported disabled, `click` fails
immediately with the disabled-element error, regardless of any strategy outcome;
for an enabled element on which all five primary strategies fail (raise or
return falsy), `click` returns `focus_tap` iff the fallback flag is enabled and
the fallback returns truthy, and otherwise fails — with the unresolved-interaction
error when the fallback is disabled or returns falsy, and with the fallback's
own exception (propagated uncaught) when the enabled fallback raises. -/
theorem C3_click_resolution (eng : UIClickEngine) (e : UIElementHandle) :
    (e.is_enabled = false → eng.click e = Except.error ClickError.disabledElement) ∧
    (strategy_fails e.invoke → strategy_fails e.toggle → strategy_fails e.select →
     strategy_fails e.msaa_default_action → strategy_fails e.send_bm_click →
     e.is_enabled = true →
       ((eng.click e = Except.ok ClickMethod.focus_tap) ↔
         (eng.allow_focus_tap = true ∧ e.focus_tap = StrategyResult.ok true)) ∧
       (eng.allow_focus_tap = false → eng.click e = Except.error ClickError.unresolved) ∧
       (e.focus_tap = StrategyResult.ok false → eng.click e = Except.error ClickError.unresolved) ∧
       (∀ msg, eng.allow_focus_tap = true → e.focus_tap = StrategyResult.exc msg →
         eng.click e = Except.error (ClickError.propagated msg))) := by
  constructor
  · intro hdis
    simp [UIClickEngine.click, hdis]
  · intro h1 h2 h3 h4 h5 hen
    have hres := resolve_click_none e h1 h2 h3 h4 h5
    have hclick : eng.click e =
        (if eng.allow_focus_tap then
          match e.focus_tap with
          | StrategyResult.ok true => Except.ok ClickMethod.focus_tap
          | StrategyResult.ok false => Except.error ClickError.unresolved
          | StrategyResult.exc msg => Except.error (ClickError.propagated msg)
        else Except.error ClickError.unresolved) := by
      simp [UIClickEngine.click, hen, hres]
    refine ⟨?_, ?_, ?_, ?_⟩
    · constructor
      · intro hok
        rw [hclick] at hok
        cases hfa : eng.allow_focus_tap with
        | false => rw [hfa] at hok; simp at hok
        | true =>
          rw [hfa] at hok
          simp only [if_true] at hok
          cases hft : e.focus_tap with
          | ok b =>
            cases b with
            | true => exact ⟨rfl, rfl⟩
            | false => rw [hft] at hok; simp at hok
          | exc m => rw [hft] at hok; simp at hok
      · rintro ⟨hfa, hft⟩
        rw [hclick, hfa, hft]
        rfl
    · intro hfa
      rw [hclick, hfa]
      rfl
    · intro hft
      rw [hclick, hft]
      cases hfa : eng.allow_focus_tap <;> rfl
    · intro msg hfa hft
      rw [hclick, hfa, hft]
      rfl

/-- Claim C3 witness: a concrete enabled element whose five primary strategies
all return falsy and whose fallback returns truthy resolves to `focus_tap` under
an engine with the fallback flag enabled. -/
theorem C3_witness :
    (UIClickEngine.mk true).click
      { identifier := "btn", is_enabled := true,
        invoke := StrategyResult.ok false, toggle := StrategyResult.ok false,
        select := StrategyResult.ok false, msaa_default_action := StrategyResult.ok false,
        send_bm_click := StrategyResult.ok false, focus_tap := StrategyResult.ok true } =
      Except.ok ClickMethod.focus_tap := by
  exact ((C3_click_resolution (UIClickEngine.mk true) _).2 (by decide) (by decide)
    (by decide) (by decide) (by decide) rfl).1.mpr (by exact ⟨rfl, rfl⟩)


theorem opt_or_none {α : Type} (a : Option α) : opt_or a none = a := by
  cases a <;> rfl

theorem opt_or_none_left {α : Type} (b : Option α) : opt_or none b = b := rfl

/-- Claim C6: for every launch-plan construction with a truthy configured `path`,
the argument vector is the configured args, then the preset args, then the
caller-supplied extra args, in that order; and every environment lookup is
resolved by the caller overrides first, then the configured env, then the host
environment (the latter only when inheritance is enabled). -/
theorem C6_launch_plan_merge (d : ApplicationDefinition) (preset : Option String)
    (extra_args : Option (List String)) (env_overrides : Option StrMap)
    (inherit_env : Option Bool) (working_dir : Option String) (host_env : StrMap)
    (p : String) (hpath : d.config.path = some p) (hp : p.isEmpty = false)
    (hhost : (host_env.map Prod.fst).Nodup)
    (hcfg : (d.config.env.map Prod.fst).Nodup)
    (hov : ∀ ov, env_overrides = some ov → (ov.map Prod.fst).Nodup) :
    ∃ plan,
      d.build_launch_plan preset extra_args env_overrides inherit_env working_dir host_env
        = Except.ok plan ∧
      plan.command =
        LaunchCommand.exec p (d.config.args ++ preset_args d preset ++ extra_args.getD []) ∧
      (∀ k, alist_get plan.env k =
        opt_or (alist_get (env_overrides.getD []) k)
          (opt_or (alist_get d.config.env k)
            (if inherit_env.getD d.config.inherit_env then alist_get host_env k else none))) := by
  have hguard : py_truthy_str d.config.path = true := by
    rw [hpath]; simp [py_truthy_str, hp]
  unfold ApplicationDefinition.build_launch_plan
  rw [hguard]
  simp only [Bool.true_or, Bool.not_true, Bool.false_eq_true, if_false, if_true, hpath,
    Option.getD_some]
  refine ⟨_, rfl, ?_, ?_⟩
  · -- argument-vector clause
    rcases preset with _ | pr
    · rcases extra_args with _ | extra
      · simp [preset_args]
      · by_cases hex : extra.isEmpty
        · have hnil : extra = [] := List.isEmpty_iff.mp hex
          subst hnil
          simp [preset_args]
        · simp only [Bool.not_eq_true] at hex
          simp [preset_args, hex]
    · rcases extra_args with _ | extra
      · by_cases hpr : pr.isEmpty
        · simp [preset_args, hpr]
        · simp only [Bool.not_eq_true] at hpr
          simp [preset_args, hpr]
      · by_cases hpr : pr.isEmpty
        · by_cases hex : extra.isEmpty
          · have hnil : extra = [] := List.isEmpty_iff.mp hex
            subst hnil
            simp [preset_args, hpr]
          · simp only [Bool.not_eq_true] at hex
            simp [preset_args, hpr, hex]
        · simp only [Bool.not_eq_true] at hpr
          by_cases hex : extra.isEmpty
          · have hnil : extra = [] := List.isEmpty_iff.mp hex
            subst hnil
            simp [preset_args, hpr]
          · simp only [Bool.not_eq_true] at hex
            simp [preset_args, hpr, hex]
  · -- environment clause
    intro k
    rcases env_overrides with _ | ov
    · rcases inherit_env with _ | ib
      · by_cases hi : d.config.inherit_env
        · simp [hi]
          rw [alist_get_update _ _ _ hcfg, alist_get_update _ _ _ hhost]
          simp [alist_get, opt_or_none, opt_or_none_left]
        · simp only [Bool.not_eq_true] at hi
          simp [hi]
          rw [alist_get_update _ _ _ hcfg]
          simp [alist_get, opt_or_none, opt_or_none_left]
      · cases ib
        · simp
          rw [alist_get_update _ _ _ hcfg]
          simp [alist_get, opt_or_none, opt_or_none_left]
        · simp
          rw [alist_get_update _ _ _ hcfg, alist_get_update _ _ _ hhost]
          simp [alist_get, opt_or_none, opt_or_none_left]
    · by_cases hoe : ov.isEmpty
      · have hnil : ov = [] := List.isEmpty_iff.mp hoe
        subst hnil
        rcases inherit_env with _ | ib
        · by_cases hi : d.config.inherit_env
          · simp [hi]
            rw [alist_get_update _ _ _ hcfg, alist_get_update _ _ _ hhost]
            simp [alist_get, opt_or_none, opt_or_none_left]
          · simp only [Bool.not_eq_true] at hi
            simp [hi]
            rw [alist_get_update _ _ _ hcfg]
            simp [alist_get, opt_or_none, opt_or_none_left]
        · cases ib
          · simp
            rw [alist_get_update _ _ _ hcfg]
            simp [alist_get, opt_or_none, opt_or_none_left]
          · simp
            rw [alist_get_update _ _ _ hcfg, alist_get_update _ _ _ hhost]
            simp [alist_get, opt_or_none, opt_or_none_left]
      · simp only [Bool.not_eq_true] at hoe
        have hovnd : (ov.map Prod.fst).Nodup := hov ov rfl
        rcases inherit_env with _ | ib
        · by_cases hi : d.config.inherit_env
          · simp [hi, hoe]
            rw [alist_get_update _ _ _ hovnd, alist_get_update _ _ _ hcfg,
              alist_get_update _ _ _ hhost]
            simp [alist_get, opt_or_none, opt_or_none_left]
          · simp only [Bool.not_eq_true] at hi
            simp [hi, hoe]
            rw [alist_get_update _ _ _ hovnd, alist_get_update _ _ _ hcfg]
            simp [alist_get, opt_or_none, opt_or_none_left]
        · cases ib
          · simp [hoe]
            rw [alist_get_update _ _ _ hovnd, alist_get_update _ _ _ hcfg]
            simp [alist_get, opt_or_none, opt_or_none_left]
          · simp [hoe]
            rw [alist_get_update _ _ _ hovnd, alist_get_update _ _ _ hcfg,
              alist_get_update _ _ _ hhost]
            simp [alist_get, opt_or_none, opt_or_none_left]


/-- Claim C6 witness: a concrete definition with one preset, caller extras and a
layered environment produces the merged argument vector and override-wins
environment lookups. -/
theorem C6_witness :
    ∃ plan,
      (ApplicationDefinition.mk "app"
          { enabled := true, path := some "C:/app.exe", shell := none, args := ["-a"],
            working_dir := none, env := [("E", "cfg"), ("F", "cfg")], inherit_env := true,
            window := { single_instance := "detect" },
            presets := [("fast", ["-f"])] }).build_launch_plan
        (some "fast") (some ["-x"]) (some [("E", "ov")]) none none
        [("E", "host"), ("H", "host")] = Except.ok plan ∧
      plan.command = LaunchCommand.exec "C:/app.exe" ["-a", "-f", "-x"] ∧
      alist_get plan.env "E" = some "ov" ∧
      alist_get plan.env "F" = some "cfg" ∧
      alist_get plan.env "H" = some "host" := by
  obtain ⟨plan, h1, h2, h3⟩ :=
    C6_launch_plan_merge
      (ApplicationDefinition.mk "app"
        { enabled := true, path := some "C:/app.exe", shell := none, args := ["-a"],
          working_dir := none, env := [("E", "cfg"), ("F", "cfg")], inherit_env := true,
          window := { single_instance := "detect" },
          presets := [("fast", ["-f"])] })
      (some "fast") (some ["-x"]) (some [("E", "ov")]) none none
      [("E", "host"), ("H", "host")] "C:/app.exe" rfl rfl (by decide) (by decide)
      (by intro ov h; cases h; decide)
  refine ⟨plan, h1, ?_, ?_, ?_, ?_⟩
  · rw [h2]; rfl
  · rw [h3 "E"]; rfl
  · rw [h3 "F"]; rfl
  · rw [h3 "H"]; rfl


/-! ### Registry reconciliation lemmas -/

theorem list_map_id_of_mem {α : Type} (l : List α) (f : α → α)
    (h : ∀ a ∈ l, f a = a) : l.map f = l := by
  induction l with
  | nil => rfl
  | cons a t ih =>
    simp only [List.map_cons, h a (List.mem_cons_self a t)]
    rw [ih (fun x hx => h x (List.mem_cons_of_mem a hx))]

theorem update_windows_app (os : OsOracle) (v : Bool) (r : ApplicationProcess) :
    (update_windows os v r).app = r.app := by
  unfold update_windows
  cases (os.windows_for r.app).filter (fun w => !v || w.is_visible) <;> rfl

theorem update_windows_iid (os : OsOracle) (v : Bool) (r : ApplicationProcess) :
    (update_windows os v r).instance_id = r.instance_id := by
  unfold update_windows
  cases (os.windows_for r.app).filter (fun w => !v || w.is_visible) <;> rfl

theorem filter_visible_false (l : List WindowSnap) :
    (l.filter (fun w => !false || w.is_visible)) = l := by
  induction l with
  | nil => rfl
  | cons a t ih => simp [List.filter_cons, ih]

theorem update_windows_false_idem (os : OsOracle) (r : ApplicationProcess) :
    update_windows os false (update_windows os false r) = update_windows os false r := by
  unfold update_windows
  rw [filter_visible_false]
  cases hw : os.windows_for r.app with
  | nil => simp [filter_visible_false, hw]
  | cons w ws => simp [filter_visible_false, hw]

/-- Elements of `live_records` are refresh-stable and pass the liveness test. -/
theorem live_records_mem (reg : ApplicationRegistry) (os : OsOracle) (name : String)
    (x : ApplicationProcess) (hx : x ∈ live_records reg os name) :
    update_windows os false x = x ∧ record_alive os x = true := by
  unfold live_records at hx
  have halive := List.of_mem_filter hx
  have hmap := List.mem_of_mem_filter hx
  obtain ⟨y, _, hy⟩ := List.mem_map.mp hmap
  refine ⟨?_, halive⟩
  rw [← hy, update_windows_false_idem]

/-- A registry whose running entry for `name` is a list of refresh-stable live
records has exactly that list as its live records. -/
theorem live_records_of_lookup (reg : ApplicationRegistry) (os : OsOracle) (name : String)
    (L : List ApplicationProcess) (hlook : alist_get reg.running name = some L)
    (hL : ∀ x ∈ L, update_windows os false x = x ∧ record_alive os x = true) :
    live_records reg os name = L := by
  unfold live_records
  rw [hlook]
  simp only [Option.getD_some]
  rw [list_map_id_of_mem _ _ (fun x hx => (hL x hx).1)]
  exact List.filter_eq_self.mpr (fun x hx => (hL x hx).2)

theorem alist_get_set_self {α : Type} (m : List (String × α)) (k : String) (v : α) :
    alist_get (alist_set m k v) k = some v := by
  rw [alist_get_set]
  simp

/-- `_purge_stopped` keeps exactly the live records (stated for a name that still
has at least one live record). -/
theorem purge_stopped_lookup (reg : ApplicationRegistry) (os : OsOracle) (name : String)
    (hne : live_records reg os name ≠ []) :
    alist_get (purge_stopped reg os name).running name = some (live_records reg os name) := by
  unfold purge_stopped
  cases hlook : alist_get reg.running name with
  | none =>
    exfalso
    apply hne
    unfold live_records
    rw [hlook]
    rfl
  | some records =>
    cases hrec : records with
    | nil =>
      exfalso
      apply hne
      unfold live_records
      rw [hlook, hrec]
      rfl
    | cons r rs =>
      have hLdef : live_records reg os name =
          (records.map (update_windows os false)).filter (fun x => record_alive os x) := by
        unfold live_records
        rw [hlook]
        rfl
      rw [← hrec]
      have hempty : records.isEmpty = false := by rw [hrec]; rfl
      simp only [hempty, Bool.false_eq_true, if_false]
      rw [← hLdef]
      have : (live_records reg os name).isEmpty = false := by
        cases hc : live_records reg os name with
        | nil => exact absurd hc hne
        | cons a t => rfl
      simp only [this, Bool.false_eq_true, if_false]
      exact alist_get_set_self _ _ _

/-- `_remove_inactive_records` keeps exactly the live records as well (its
liveness test is the same, with the disjuncts swapped). -/
theorem remove_inactive_lookup (reg : ApplicationRegistry) (os : OsOracle) (name : String)
    (hne : live_records reg os name ≠ []) :
    alist_get (remove_inactive_records reg os name).running name
      = some (live_records reg os name) := by
  unfold remove_inactive_records
  cases hlook : alist_get reg.running name with
  | none =>
    exfalso
    apply hne
    unfold live_records
    rw [hlook]
    rfl
  | some records =>
    cases hrec : records with
    | nil =>
      exfalso
      apply hne
      unfold live_records
      rw [hlook, hrec]
      rfl
    | cons r rs =>
      have hfc : (records.map (update_windows os false)).filter
            (fun x => !x.windows.isEmpty || has_live_process os x)
          = (records.map (update_windows os false)).filter (fun x => record_alive os x) :=
        List.filter_congr (fun x _ => by
          unfold record_alive
          exact Bool.or_comm _ _)
      have hLdef : live_records reg os name =
          (records.map (update_windows os false)).filter (fun x => record_alive os x) := by
        unfold live_records
        rw [hlook]
        rfl
      rw [← hrec]
      have hempty : records.isEmpty = false := by rw [hrec]; rfl
      simp only [hempty, Bool.false_eq_true, if_false]
      rw [hfc, ← hLdef]
      have : (live_records reg os name).isEmpty = false := by
        cases hc : live_records reg os name with
        | nil => exact absurd hc hne
        | cons a t => rfl
      simp only [this, Bool.false_eq_true, if_false]
      exact alist_get_set_self _ _ _

/-- Purging (and the inactive-record sweep) does not change which records are
live: combined with `purge_stopped_lookup`, the running list stabilises. -/
theorem live_records_stable (reg reg2 : ApplicationRegistry) (os : OsOracle) (name : String)
    (hlook : alist_get reg2.running name = some (live_records reg os name)) :
    live_records reg2 os name = live_records reg os name :=
  live_records_of_lookup reg2 os name _ hlook
    (fun x hx => live_records_mem reg os name x hx)


/-- Claim C1: for an application configured with `single_instance=detect` (and
enabled), a `start` issued while at least one live record exists — here exactly
one, as the policy itself guarantees for records created through `start` — fails
with the already-running error, the spawned record is not added (the running
list for the name is exactly the reconciled live list from before the call), and
the number of live records for the name stays at one. -/
theorem C1_single_instance_detect (reg : ApplicationRegistry) (os os2 : OsOracle)
    (name : String) (cfg : AppConfigSchema) (preset : Option String)
    (args : Option (List String)) (env : Option StrMap) (inherit_env : Option Bool)
    (working_dir : Option String) (host_env : StrMap) (new_iid : String) (spawn_pid : Nat)
    (happ : alist_get reg.apps name = some cfg)
    (hen : cfg.enabled = true)
    (hpol : cfg.window.single_instance = "detect")
    (hone : (live_records reg os name).length = 1) :
    (reg.start os os2 name preset args env inherit_env working_dir host_env new_iid
        spawn_pid).2 = Except.error (RegistryError.alreadyRunning name) ∧
    alist_get (reg.start os os2 name preset args env inherit_env working_dir host_env
        new_iid spawn_pid).1.running name = some (live_records reg os name) ∧
    (live_records (reg.start os os2 name preset args env inherit_env working_dir host_env
        new_iid spawn_pid).1 os name).length = 1 := by
  have hne : live_records reg os name ≠ [] := by
    intro h
    rw [h] at hone
    simp at hone
  have h1 := purge_stopped_lookup reg os name hne
  have h1s : live_records (purge_stopped reg os name) os name = live_records reg os name :=
    live_records_stable reg _ os name h1
  have h2 : alist_get (remove_inactive_records (purge_stopped reg os name) os name).running
      name = some (live_records reg os name) := by
    have h := remove_inactive_lookup (purge_stopped reg os name) os name
      (by rw [h1s]; exact hne)
    rw [h1s] at h
    exact h
  have h2s : live_records (remove_inactive_records (purge_stopped reg os name) os name) os
      name = live_records reg os name := live_records_stable reg _ os name h2
  have hLe : (live_records reg os name).isEmpty = false := by
    cases hc : live_records reg os name with
    | nil => exact absurd hc hne
    | cons a t => rfl
  have hstart : reg.start os os2 name preset args env inherit_env working_dir host_env
      new_iid spawn_pid =
      (remove_inactive_records (purge_stopped reg os name) os name,
        Except.error (RegistryError.alreadyRunning name)) := by
    unfold ApplicationRegistry.start
    rw [happ]
    simp only [hen, Bool.not_true, Bool.false_eq_true, if_false, hpol]
    rw [h2]
    simp [hLe]
  rw [hstart]
  exact ⟨rfl, h2, by rw [h2s]; exact hone⟩

/-- Claim C1 witness: a concrete registry holding one live `demo` record (live
process, no windows) under a `detect` policy rejects a second `start` and keeps
one live record. -/
theorem C1_witness :
    (live_records
        (ApplicationRegistry.mk
          [("demo",
            { enabled := true, path := some "demo.exe", shell := none, args := [],
              working_dir := none, env := [], inherit_env := true,
              window := { single_instance := "detect" }, presets := [] })]
          [("demo",
            [{ app := "demo", instance_id := "aaa", pid := some 7, windows := [],
               last_focused_at := none }])]
          [("aaa",
            { app := "demo", instance_id := "aaa", pid := some 7, windows := [],
              last_focused_at := none })])
        (OsOracle.mk (fun iid => iid == "aaa") (fun _ => [])) "demo").length = 1 ∧
    ((ApplicationRegistry.mk
          [("demo",
            { enabled := true, path := some "demo.exe", shell := none, args := [],
              working_dir := none, env := [], inherit_env := true,
              window := { single_instance := "detect" }, presets := [] })]
          [("demo",
            [{ app := "demo", instance_id := "aaa", pid := some 7, windows := [],
               last_focused_at := none }])]
          [("aaa",
            { app := "demo", instance_id := "aaa", pid := some 7, windows := [],
              last_focused_at := none })]).start
        (OsOracle.mk (fun iid => iid == "aaa") (fun _ => []))
        (OsOracle.mk (fun iid => iid == "aaa") (fun _ => [])) "demo" none none none none
        none [] "bbb" 9).2 = Except.error (RegistryError.alreadyRunning "demo") := by
  refine ⟨by decide, ?_⟩
  exact (C1_single_instance_detect _ _ _ "demo"
    { enabled := true, path := some "demo.exe", shell := none, args := [],
      working_dir := none, env := [], inherit_env := true,
      window := { single_instance := "detect" }, presets := [] }
    none none none none none [] "bbb" 9
    (by decide) (by decide) (by decide) (by decide)).1


/-- Claim C2 (counterexample to the claim as stated): on a registry that knows
only the application `known`, `focus` on the unknown name `ghost` fails with the
not-running error — not the unknown-application error the claim requires of
every operation. -/
theorem C2_unknown_name_counterexample :
    ((ApplicationRegistry.mk
        [("known",
          { enabled := true, path := some "known.exe", shell := none, args := [],
            working_dir := none, env := [], inherit_env := true,
            window := { single_instance := "detect" }, presets := [] })]
        [] []).focus
      (OsOracle.mk (fun _ => false) (fun _ => [])) "ghost" PyTarget.noTarget 0).2
      = Except.error (RegistryError.notRunning "ghost") ∧
    RegistryError.notRunning "ghost" ≠ RegistryError.unknownApplication "ghost" := by
  refine ⟨rfl, ?_⟩
  intro h
  cases h

/-- Claim C2 (amended): for a name that is not registered in the configuration
(and hence has no running records), `start` fails fast with the
unknown-application error, while `focus`, `minimize`, `maximize`, `restore`,
`close` and `kill` fail with the not-running error (their record-selection paths
never consult the configuration table). -/
theorem C2_unknown_application_errors (reg : ApplicationRegistry) (os os2 : OsOracle)
    (name : String) (target : PyTarget) (now : Nat) (preset : Option String)
    (args : Option (List String)) (env : Option StrMap) (inherit_env : Option Bool)
    (working_dir : Option String) (host_env : StrMap) (new_iid : String) (spawn_pid : Nat)
    (timeout : Nat) (force all_instances : Bool)
    (happ : alist_get reg.apps name = none)
    (hrun : alist_get reg.running name = none) :
    (reg.start os os2 name preset args env inherit_env working_dir host_env new_iid
        spawn_pid).2 = Except.error (RegistryError.unknownApplication name) ∧
    (reg.focus os name target now).2 = Except.error (RegistryError.notRunning name) ∧
    (reg.minimize os name target).2 = Except.error (RegistryError.notRunning name) ∧
    (reg.maximize os name target).2 = Except.error (RegistryError.notRunning name) ∧
    (reg.restore os name target).2 = Except.error (RegistryError.notRunning name) ∧
    (reg.close os os2 name timeout force all_instances).2
        = Except.error (RegistryError.notRunning name) ∧
    (reg.kill os os2 name all_instances).2 = Except.error (RegistryError.notRunning name) := by
  have hpurge : purge_stopped reg os name = reg := by
    unfold purge_stopped
    rw [hrun]
  have hsel : select_record reg os name target = (reg, none) := by
    unfold select_record
    rw [hpurge]
    simp [hrun]
  have hens : ensure_running_record reg os name target
      = (reg, Except.error (RegistryError.notRunning name)) := by
    unfold ensure_running_record
    rw [hsel]
  have hselr : ∀ ai : Bool, select_records reg os name ai = (reg, []) := by
    intro ai
    unfold select_records
    rw [hpurge]
    simp [hrun]
  refine ⟨?_, ?_, ?_, ?_, ?_, ?_, ?_⟩
  · unfold ApplicationRegistry.start
    rw [happ]
  · unfold ApplicationRegistry.focus
    rw [hens]
  · unfold ApplicationRegistry.minimize window_op
    rw [hens]
  · unfold ApplicationRegistry.maximize window_op
    rw [hens]
  · unfold ApplicationRegistry.restore window_op
    rw [hens]
  · unfold ApplicationRegistry.close
    rw [hselr all_instances]
  · unfold ApplicationRegistry.kill
    rw [hselr all_instances]

/-- Claim C2 witness: on a concrete registry that does not know `ghost`, `start`
reports the unknown application and `kill` reports not-running. -/
theorem C2_witness :
    alist_get
        (ApplicationRegistry.mk
          [("known",
            { enabled := true, path := some "known.exe", shell := none, args := [],
              working_dir := none, env := [], inherit_env := true,
              window := { single_instance := "detect" }, presets := [] })]
          [] []).apps "ghost" = none ∧
    ((ApplicationRegistry.mk
          [("known",
            { enabled := true, path := some "known.exe", shell := none, args := [],
              working_dir := none, env := [], inherit_env := true,
              window := { single_instance := "detect" }, presets := [] })]
          [] []).start
        (OsOracle.mk (fun _ => false) (fun _ => []))
        (OsOracle.mk (fun _ => false) (fun _ => [])) "ghost" none none none none none []
        "bbb" 9).2 = Except.error (RegistryError.unknownApplication "ghost") ∧
    ((ApplicationRegistry.mk
          [("known",
            { enabled := true, path := some "known.exe", shell := none, args := [],
              working_dir := none, env := [], inherit_env := true,
              window := { single_instance := "detect" }, presets := [] })]
          [] []).kill
        (OsOracle.mk (fun _ => false) (fun _ => []))
        (OsOracle.mk (fun _ => false) (fun _ => [])) "ghost" false).2
      = Except.error (RegistryError.notRunning "ghost") := by
  refine ⟨by decide, ?_, ?_⟩
  · exact (C2_unknown_application_errors _ _ _ "ghost" PyTarget.noTarget 0 none none none
      none none [] "bbb" 9 5 false false (by decide) (by decide)).1
  · exact (C2_unknown_application_errors _ _ _ "ghost" PyTarget.noTarget 0 none none none
      none none [] "bbb" 9 5 false false (by decide) (by decide)).2.2.2.2.2.2


/-! ### Instance-table preservation under purging -/

theorem foldl_remove_get (l : List ApplicationProcess)
    (m : List (String × ApplicationProcess)) (s : String)
    (h : ∀ r ∈ l, r.instance_id ≠ s) :
    alist_get (l.foldl (fun acc r => alist_remove acc r.instance_id) m) s
      = alist_get m s := by
  induction l generalizing m with
  | nil => rfl
  | cons a t ih =>
    rw [List.foldl_cons, ih _ (fun x hx => h x (List.mem_cons_of_mem a hx)),
      alist_get_remove_ne _ _ _ (h a (List.mem_cons_self a t))]

theorem foldl_replace_get (l : List ApplicationProcess)
    (m : List (String × ApplicationProcess)) (s : String)
    (h : ∀ r ∈ l, r.instance_id ≠ s) :
    alist_get (l.foldl (fun acc r => alist_replace acc r.instance_id r) m) s
      = alist_get m s := by
  induction l generalizing m with
  | nil => rfl
  | cons a t ih =>
    rw [List.foldl_cons, ih _ (fun x hx => h x (List.mem_cons_of_mem a hx)),
      alist_get_replace_ne _ _ _ _ (h a (List.mem_cons_self a t))]

/-- Purging one application's records leaves every unrelated instance-table
entry untouched. -/
theorem purge_stopped_instances_get (reg : ApplicationRegistry) (os : OsOracle)
    (name : String) (s : String)
    (h : ∀ r ∈ (alist_get reg.running name).getD [], r.instance_id ≠ s) :
    alist_get (purge_stopped reg os name).instances s = alist_get reg.instances s := by
  unfold purge_stopped
  cases hlook : alist_get reg.running name with
  | none => rfl
  | some records =>
    rw [hlook] at h
    simp only [Option.getD_some] at h
    by_cases hre : records.isEmpty
    · simp [hre]
    · simp only [Bool.not_eq_true] at hre
      simp only [hre, Bool.false_eq_true, if_false]
      have hrefr : ∀ x ∈ records.map (update_windows os false), x.instance_id ≠ s := by
        intro x hx
        obtain ⟨y, hy, hxy⟩ := List.mem_map.mp hx
        rw [← hxy, update_windows_iid]
        exact h y hy
      have hfold : alist_get
          (((records.map (update_windows os false)).filter
              (fun r => record_alive os r)).foldl
            (fun m r => alist_replace m r.instance_id r)
            (((records.map (update_windows os false)).filter
                (fun r => !(record_alive os r))).foldl
              (fun m r => alist_remove m r.instance_id) reg.instances)) s
          = alist_get reg.instances s := by
        rw [foldl_replace_get _ _ _
            (fun x hx => hrefr x (List.mem_of_mem_filter hx)),
          foldl_remove_get _ _ _
            (fun x hx => hrefr x (List.mem_of_mem_filter hx))]
      split
      · exact hfold
      · exact hfold

/-- Claim C9 (counterexample to the claim as stated): the application name is
not ignored — with `A` configured but owning no records, a `focus("A")` on the
instance id of `B`'s live record raises not-running instead of returning `B`'s
record, because `_select_record` returns early when the named application's
record list is empty. -/
theorem C9_name_not_ignored_counterexample :
    ((ApplicationRegistry.mk
        [("A",
          { enabled := true, path := some "a.exe", shell := none, args := [],
            working_dir := none, env := [], inherit_env := true,
            window := { single_instance := "allow" }, presets := [] }),
         ("B",
          { enabled := true, path := some "b.exe", shell := none, args := [],
            working_dir := none, env := [], inherit_env := true,
            window := { single_instance := "allow" }, presets := [] })]
        [("B",
          [{ app := "B", instance_id := "bbb", pid := some 8, windows := [],
             last_focused_at := none }])]
        [("bbb",
          { app := "B", instance_id := "bbb", pid := some 8, windows := [],
            last_focused_at := none })]).focus
      (OsOracle.mk (fun iid => iid == "bbb") (fun _ => [])) "A"
      (PyTarget.ofStr "bbb") 0).2
      = Except.error (RegistryError.notRunning "A") := by
  rfl

/-- Claim C9 (amended): provided the named application still has at least one
live record after reconciliation, a string target that is not all-digits and not
`latest`/`first` is resolved purely through the registry-wide instance table,
ignoring the name: when it names a live record of a different application, that
record is returned (and acted upon) instead of an error. -/
theorem C9_instance_target_cross_app (reg : ApplicationRegistry) (os : OsOracle)
    (name : String) (s : String) (rB : ApplicationProcess) (now : Nat)
    (hlive : live_records reg os name ≠ [])
    (hdigit : py_isdigit s = false)
    (hlat : s ≠ "latest") (hfirst : s ≠ "first")
    (hinst : alist_get reg.instances s = some rB)
    (hother : rB.app ≠ name)
    (hnocol : ∀ r ∈ (alist_get reg.running name).getD [], r.instance_id ≠ s)
    (halive : record_alive os (update_windows os false rB) = true) :
    ∃ r, (reg.focus os name (PyTarget.ofStr s) now).2 = Except.ok r ∧
      r.app = rB.app ∧ r.instance_id = rB.instance_id ∧ r.app ≠ name := by
  have hlook1 := purge_stopped_lookup reg os name hlive
  have hLe : (live_records reg os name).isEmpty = false := by
    cases hc : live_records reg os name with
    | nil => exact absurd hc hlive
    | cons a t => rfl
  have hinst1 : alist_get (purge_stopped reg os name).instances s = some rB := by
    rw [purge_stopped_instances_get reg os name s hnocol]
    exact hinst
  have hsel : select_record reg os name (PyTarget.ofStr s)
      = (purge_stopped reg os name, some rB) := by
    unfold select_record
    simp [hlook1, hLe, hlat, hfirst, hdigit, hinst1]
  have hcheck : (has_live_process os (update_windows os false rB)
      || !(update_windows os false rB).windows.isEmpty) = true := by
    have h := halive
    unfold record_alive at h
    exact h
  have hens : ensure_running_record reg os name (PyTarget.ofStr s)
      = (store_record (purge_stopped reg os name) (update_windows os false rB),
         Except.ok (update_windows os false rB)) := by
    unfold ensure_running_record
    rw [hsel]
    simp [hcheck]
  have hfocus : (reg.focus os name (PyTarget.ofStr s) now).2 =
      Except.ok { update_windows os false rB with last_focused_at := some now } := by
    unfold ApplicationRegistry.focus
    rw [hens]
    unfold primary_window
    simp only [update_windows_false_idem]
  refine ⟨_, hfocus, ?_, ?_, ?_⟩
  · simp [update_windows_app]
  · simp [update_windows_iid]
  · simp only [update_windows_app]
    exact hother

/-- Claim C9 witness: with `A` owning one live record and `B` a live record with
instance id `bbb`, `focus("A", target="bbb")` returns `B`'s record. -/
theorem C9_witness :
    ∃ r, ((ApplicationRegistry.mk
        [("A",
          { enabled := true, path := some "a.exe", shell := none, args := [],
            working_dir := none, env := [], inherit_env := true,
            window := { single_instance := "allow" }, presets := [] }),
         ("B",
          { enabled := true, path := some "b.exe", shell := none, args := [],
            working_dir := none, env := [], inherit_env := true,
            window := { single_instance := "allow" }, presets := [] })]
        [("A",
          [{ app := "A", instance_id := "aaa", pid := some 7, windows := [],
             last_focused_at := none }]),
         ("B",
          [{ app := "B", instance_id := "bbb", pid := some 8, windows := [],
             last_focused_at := none }])]
        [("aaa",
          { app := "A", instance_id := "aaa", pid := some 7, windows := [],
            last_focused_at := none }),
         ("bbb",
          { app := "B", instance_id := "bbb", pid := some 8, windows := [],
            last_focused_at := none })]).focus
      (OsOracle.mk (fun iid => (iid == "aaa") || (iid == "bbb")) (fun _ => [])) "A"
      (PyTarget.ofStr "bbb") 3).2 = Except.ok r ∧
      r.app = "B" ∧ r.instance_id = "bbb" := by
  obtain ⟨r, h1, h2, h3, h4⟩ := C9_instance_target_cross_app
    (ApplicationRegistry.mk
      [("A",
        { enabled := true, path := some "a.exe", shell := none, args := [],
          working_dir := none, env := [], inherit_env := true,
          window := { single_instance := "allow" }, presets := [] }),
       ("B",
        { enabled := true, path := some "b.exe", shell := none, args := [],
          working_dir := none, env := [], inherit_env := true,
          window := { single_instance := "allow" }, presets := [] })]
      [("A",
        [{ app := "A", instance_id := "aaa", pid := some 7, windows := [],
           last_focused_at := none }]),
       ("B",
        [{ app := "B", instance_id := "bbb", pid := some 8, windows := [],
           last_focused_at := none }])]
      [("aaa",
        { app := "A", instance_id := "aaa", pid := some 7, windows := [],
          last_focused_at := none }),
       ("bbb",
        { app := "B", instance_id := "bbb", pid := some 8, windows := [],
          last_focused_at := none })])
    (OsOracle.mk (fun iid => (iid == "aaa") || (iid == "bbb")) (fun _ => [])) "A" "bbb"
    { app := "B", instance_id := "bbb", pid := some 8, windows := [],
      last_focused_at := none } 3
    (by decide) (by decide) (by decide) (by decide) (by decide) (by decide)
    (by decide) (by decide)
  exact ⟨r, h1, h2, h3⟩


/-! ### Recipe-runner activity lemmas -/

theorem end_activity_no_trunc (st : StateStore) (r : ActivityRecord) (status : String)
    (err : Option String)
    (hc : st.current_activity = some r)
    (hroom : st.history_limit = 0 ∨ st.activity_history.length + 1 ≤ st.history_limit) :
    end_activity st r status err =
      { st with
        activity_history :=
          st.activity_history ++ [{ r with status := status, error := err }],
        current_activity := none } := by
  unfold end_activity
  rw [if_pos hc]
  have hno : ¬(st.history_limit ≠ 0 ∧ st.history_limit <
      (st.activity_history ++ [{ r with status := status, error := err }]).length) := by
    rcases hroom with h0 | hb
    · intro hx
      exact hx.1 h0
    · intro hx
      have hlt := hx.2
      simp only [List.length_append, List.length_cons, List.length_nil] at hlt
      omega
  simp only [if_neg hno]

/-- One activity scope (`begin` then `end`) appends exactly one finished record
when the capped history has room. -/
theorem activity_scope (st : StateStore) (record : ActivityRecord) (status : String)
    (err : Option String)
    (hroom : st.history_limit = 0 ∨ st.activity_history.length + 1 ≤ st.history_limit) :
    end_activity (begin_activity st record) record status err =
      { st with
        activity_history :=
          st.activity_history ++ [{ record with status := status, error := err }],
        current_activity := none } := by
  rw [end_activity_no_trunc (begin_activity st record) record status err rfl hroom]
  rfl

/-- Claim C4: steps run strictly in document order, each producing exactly one
activity record; a handler exception marks its step's record failed with the
exception message and aborts all remaining steps — the arbitrary tail `post`
after the failing step is never executed and leaves no record — while every
earlier record stays succeeded; stated for a run whose records fit within the
history cap (or an uncapped history), so no eviction interferes. -/
theorem C4_recipe_history_order (handlers : String → Option StepHandler)
    (pre post : List RawStep) (ctx ctx2 : Ctx) (st : StateStore)
    (name : String) (payload : Ctx) (h : StepHandler) (msg : String)
    (hpre : StepsSucceed handlers pre ctx ctx2)
    (hh : handlers name = some h)
    (hfail : h payload ctx2 = Except.error msg)
    (hroom : st.history_limit = 0 ∨
      st.activity_history.length + (pre.length + 1) ≤ st.history_limit) :
    run_recipe handlers (pre ++ RawStep.well name payload :: post) ctx st =
      ({ st with
          current_activity := none,
          activity_history := st.activity_history ++ succeeded_records pre 1 ++
            [failed_record name payload (pre.length + 1) msg] },
       Except.error msg) := by
  suffices hgen : ∀ (idx : Nat) (st : StateStore),
      (st.history_limit = 0 ∨
        st.activity_history.length + (pre.length + 1) ≤ st.history_limit) →
      run_steps handlers (pre ++ RawStep.well name payload :: post) idx ctx st =
        ({ st with
            current_activity := none,
            activity_history := st.activity_history ++ succeeded_records pre idx ++
              [failed_record name payload (idx + pre.length) msg] },
         Except.error msg) by
    have hg := hgen 1 st hroom
    unfold run_recipe
    rw [hg]
    have : (1 : Nat) + pre.length = pre.length + 1 := Nat.add_comm 1 pre.length
    rw [this]
  clear hroom
  induction hpre with
  | nil ctx0 =>
    intro idx st hroom
    simp only [List.nil_append, List.length_nil]
    unfold run_steps
    simp only [hh, hfail]
    simp only [activity_scope st (step_record name payload idx) "failed" (some msg)
      (by rcases hroom with h0 | hb
          · exact Or.inl h0
          · right
            simp only [List.length_nil] at hb
            omega)]
    simp [succeeded_records, failed_record]
  | cons nm pl hdl c1 c2 c3 rest hhd hok hrest ih =>
    intro idx st hroom
    simp only [List.cons_append]
    unfold run_steps
    simp only [hhd, hok]
    simp only [activity_scope st (step_record nm pl idx) "succeeded" none
      (by rcases hroom with h0 | hb
          · exact Or.inl h0
          · right
            simp only [List.length_cons] at hb
            omega)]
    rw [ih hfail (idx + 1)
      { st with
        activity_history := st.activity_history ++
          [{ step_record nm pl idx with status := "succeeded", error := none }],
        current_activity := none }
      (by rcases hroom with h0 | hb
          · exact Or.inl h0
          · right
            simp only [List.length_append, List.length_cons, List.length_nil] at hb ⊢
            omega)]
    simp only [succeeded_records, step_record, List.append_assoc, List.cons_append,
      List.nil_append, List.length_cons]
    have harith : idx + (rest.length + 1) = idx + 1 + rest.length := by omega
    rw [harith]

/-- Claim C4 witness: the recipe [A, B, C] with A succeeding and B failing
mid-recipe leaves history [A succeeded, B failed], produces no record for the
aborted step C, and propagates B's error. -/
theorem C4_witness :
    run_recipe
      (fun nm => if nm = "A" then some (fun _ c => Except.ok c)
        else if nm = "B" then some (fun _ _ => Except.error "boom")
        else if nm = "C" then some (fun _ c => Except.ok c) else none)
      [RawStep.well "A" [], RawStep.well "B" [], RawStep.well "C" []] []
      (StateStore.mk none [] 50) =
      (StateStore.mk none
        [{ name := "A", status := "succeeded", step_index := 1, payload_keys := [],
           error := none },
         { name := "B", status := "failed", step_index := 2, payload_keys := [],
           error := some "boom" }] 50,
       Except.error "boom") := by
  have h := C4_recipe_history_order
    (fun nm => if nm = "A" then some (fun _ c => Except.ok c)
      else if nm = "B" then some (fun _ _ => Except.error "boom")
      else if nm = "C" then some (fun _ c => Except.ok c) else none)
    [RawStep.well "A" []] [RawStep.well "C" []] [] [] (StateStore.mk none [] 50) "B" []
    (fun _ _ => Except.error "boom") "boom"
    (StepsSucceed.cons "A" [] (fun _ c => Except.ok c) [] [] [] []
      rfl rfl (StepsSucceed.nil []))
    rfl rfl (by right; decide)
  exact h


/-! ### Intent watcher lemmas -/

theorem str_truthy_of_ne (nm : String) (h : nm ≠ "") :
    py_truthy (PyVal.str nm) = true := by
  have he : nm.isEmpty = false := by
    cases he : nm.isEmpty
    · rfl
    · exact absurd ((String.isEmpty_iff nm).mp he) h
  simp [py_truthy, he]

theorem ne_of_str_truthy (nm : String) (h : py_truthy (PyVal.str nm) = true) :
    nm ≠ "" := by
  intro he
  subst he
  have hf : py_truthy (PyVal.str "") = false := by decide
  rw [hf] at h
  simp at h

theorem process_intent_tail_ok (rex : String → Bool)
    (runo : String → Ctx → Except String Unit) (file r rp : String) (e : Ctx)
    (hr : (if !(rex rp) then Except.error IntentError.recipeNotFound
        else match runo rp e with
          | Except.error m => Except.error (IntentError.recipeFailed m)
          | Except.ok _ => Except.ok file) = Except.ok r) :
    r = file ∧ rex rp = true ∧ runo rp e = Except.ok () := by
  cases hre : rex rp with
  | false =>
    rw [hre] at hr
    simp at hr
  | true =>
    rw [hre] at hr
    simp only [Bool.not_true, Bool.false_eq_true, if_false] at hr
    cases hrun : runo rp e with
    | error m =>
      rw [hrun] at hr
      simp at hr
    | ok u =>
      rw [hrun] at hr
      cases u
      simp only [] at hr
      exact ⟨(Except.ok.inj hr).symm, rfl, rfl⟩

/-- Full characterisation of a successful `_process_intent` run. -/
theorem process_intent_ok_iff (mappings : List (String × IntentMapping))
    (rex : String → Bool) (runo : String → Ctx → Except String Unit)
    (file : String) (load : Except String IntentDoc) (r : String) :
    process_intent mappings rex runo file load = Except.ok r ↔
      (r = file ∧ intent_success_spec mappings rex runo load) := by
  constructor
  · intro hr
    unfold process_intent at hr
    cases load with
    | error m => exact absurd hr (by simp)
    | ok doc =>
      cases hI : doc.intent with
      | none =>
        simp [hI] at hr
      | some v =>
        simp only [hI] at hr
        cases htr : py_truthy v with
        | false =>
          simp [htr] at hr
        | true =>
          simp only [htr, Bool.not_true, Bool.false_eq_true, if_false] at hr
          cases v with
          | num n => simp at hr
          | dict e => simp at hr
          | listv n => simp at hr
          | noneV => simp at hr
          | str nm =>
            cases hM : alist_get mappings nm with
            | none =>
              simp [hM] at hr
            | some mp =>
              simp only [hM] at hr
              cases hA : doc.args with
              | none =>
                simp only [hA] at hr
                obtain ⟨hrf, hre, hrun⟩ := process_intent_tail_ok rex runo file r
                  mp.recipe [] hr
                exact ⟨hrf, doc, nm, mp, [], rfl, hI, ne_of_str_truthy nm htr, hM,
                  by simp [watcher_context, hA], hre, hrun⟩
              | some a =>
                simp only [hA] at hr
                cases hta : py_truthy a with
                | false =>
                  simp only [hta, Bool.false_eq_true, if_false] at hr
                  obtain ⟨hrf, hre, hrun⟩ := process_intent_tail_ok rex runo file r
                    mp.recipe [] hr
                  exact ⟨hrf, doc, nm, mp, [], rfl, hI, ne_of_str_truthy nm htr, hM,
                    by simp [watcher_context, hA, hta], hre, hrun⟩
                | true =>
                  simp only [hta, if_true] at hr
                  cases a with
                  | str s2 => simp at hr
                  | num n2 => simp at hr
                  | listv n2 => simp at hr
                  | noneV => simp at hr
                  | dict e =>
                    obtain ⟨hrf, hre, hrun⟩ := process_intent_tail_ok rex runo file r
                      mp.recipe e hr
                    exact ⟨hrf, doc, nm, mp, e, rfl, hI, ne_of_str_truthy nm htr, hM,
                      by simp [watcher_context, hA, hta], hre, hrun⟩
  · rintro ⟨rfl, doc, nm, m, actx, rfl, hI, hnm, hM, hctx, hre, hrun⟩
    have htr : py_truthy (PyVal.str nm) = true := str_truthy_of_ne nm hnm
    unfold process_intent
    simp only [hI, htr, Bool.not_true, Bool.false_eq_true, if_false, hM]
    unfold watcher_context at hctx
    cases hA : doc.args with
    | none =>
      simp only [hA, Option.some.injEq] at hctx
      subst hctx
      simp [hA, hre, hrun]
    | some a =>
      cases hta : py_truthy a with
      | false =>
        simp only [hA, hta, Bool.false_eq_true, if_false, Option.some.injEq] at hctx
        subst hctx
        simp [hA, hta, hre, hrun]
      | true =>
        simp only [hA, hta, if_true] at hctx
        cases a with
        | str s2 => simp at hctx
        | num n2 => simp at hctx
        | listv n2 => simp at hctx
        | noneV => simp at hctx
        | dict e =>
          simp only [Option.some.injEq] at hctx
          subst hctx
          simp [hA, hta, hre, hrun]

/-- Claim C5 (counterexample to the claim as stated): an intent file whose
`args` field is present but falsy and not a mapping (the empty string) is still
processed and archived — `data.get("args") or {}` silently replaces any falsy
args value with the empty mapping, so the bad-args-type failure the claim
requires does not occur. -/
theorem C5_falsy_args_counterexample :
    process_intent [("demo", IntentMapping.mk "r.yml")] (fun _ => true)
      (fun _ _ => Except.ok ()) "f.yml"
      (Except.ok { intent := some (PyVal.str "demo"), args := some (PyVal.str "") })
      = Except.ok "f.yml" ∧
    ¬ ∃ entries, (some (PyVal.str "") : Option PyVal) = some (PyVal.dict entries) := by
  refine ⟨rfl, ?_⟩
  rintro ⟨e, he⟩
  simp at he

/-- Claim C5 (amended): an intent file is archived — under its original
filename — iff loading succeeds, the intent field holds a truthy string name
that is mapped, the args field is absent, falsy (treated as the empty mapping)
or a mapping, the mapped recipe file exists, and the recipe run succeeds; on
any failure the error propagates and the file stays in the watch directory. -/
theorem C5_archive_iff (mappings : List (String × IntentMapping))
    (rex : String → Bool) (runo : String → Ctx → Except String Unit)
    (file : String) (load : Except String IntentDoc) :
    ((∃ r, process_intent mappings rex runo file load = Except.ok r) ↔
      intent_success_spec mappings rex runo load) ∧
    (∀ r, process_intent mappings rex runo file load = Except.ok r → r = file) := by
  refine ⟨⟨?_, ?_⟩, ?_⟩
  · rintro ⟨r, hr⟩
    exact ((process_intent_ok_iff mappings rex runo file load r).mp hr).2
  · intro hs
    exact ⟨file, (process_intent_ok_iff mappings rex runo file load file).mpr ⟨rfl, hs⟩⟩
  · intro r hr
    exact ((process_intent_ok_iff mappings rex runo file load r).mp hr).1

/-- Claim C5 witness: a mapped intent with mapping args is archived under its
own filename, and an unmapped intent name is never archived. -/
theorem C5_witness :
    process_intent [("demo", IntentMapping.mk "r.yml")] (fun _ => true)
      (fun _ _ => Except.ok ()) "intent1.yml"
      (Except.ok { intent := some (PyVal.str "demo"),
                   args := some (PyVal.dict [("k", "v")]) })
      = Except.ok "intent1.yml" ∧
    ¬ ∃ r, process_intent [("demo", IntentMapping.mk "r.yml")] (fun _ => true)
      (fun _ _ => Except.ok ()) "intent2.yml"
      (Except.ok { intent := some (PyVal.str "ghost"), args := none })
      = Except.ok r := by
  constructor
  · obtain ⟨r, hr⟩ := (C5_archive_iff [("demo", IntentMapping.mk "r.yml")] (fun _ => true)
      (fun _ _ => Except.ok ()) "intent1.yml"
      (Except.ok { intent := some (PyVal.str "demo"),
                   args := some (PyVal.dict [("k", "v")]) })).1.mpr
      ⟨{ intent := some (PyVal.str "demo"), args := some (PyVal.dict [("k", "v")]) },
        "demo", IntentMapping.mk "r.yml", [("k", "v")], rfl, rfl, by decide, rfl,
        rfl, rfl, rfl⟩
    have hrf := (C5_archive_iff [("demo", IntentMapping.mk "r.yml")] (fun _ => true)
      (fun _ _ => Except.ok ()) "intent1.yml"
      (Except.ok { intent := some (PyVal.str "demo"),
                   args := some (PyVal.dict [("k", "v")]) })).2 r hr
    rw [hrf] at hr
    exact hr
  · rintro ⟨r, hr⟩
    obtain ⟨doc, nm, m, actx, hload, hI, hnm, hM, -, -, -⟩ :=
      (C5_archive_iff [("demo", IntentMapping.mk "r.yml")] (fun _ => true)
        (fun _ _ => Except.ok ()) "intent2.yml"
        (Except.ok { intent := some (PyVal.str "ghost"), args := none })).1.mp ⟨r, hr⟩
    have hdoc : doc = { intent := some (PyVal.str "ghost"), args := none } :=
      (Except.ok.inj hload).symm
    subst hdoc
    simp only [Option.some.injEq, PyVal.str.injEq] at hI
    subst hI
    simp [alist_get] at hM


/-! ### Chat bridge lemmas -/

theorem emit_foldl_invariant (b : ChatIntentBridge) (cmds : List ChatCommand)
    (acc : Nat × List IntentPayload) (hacc : acc.2.length = acc.1) :
    ((cmds.foldl (fun acc c =>
      if c.name = "list_intents" then acc
      else match alist_get b.mappings c.name with
        | none => acc
        | some _ => (acc.1 + 1, acc.2 ++ [c.to_intent_payload])) acc).2).length =
    (cmds.foldl (fun acc c =>
      if c.name = "list_intents" then acc
      else match alist_get b.mappings c.name with
        | none => acc
        | some _ => (acc.1 + 1, acc.2 ++ [c.to_intent_payload])) acc).1 := by
  induction cmds generalizing acc with
  | nil => exact hacc
  | cons c rest ih =>
    rw [List.foldl_cons]
    by_cases hn : c.name = "list_intents"
    · simp only [hn, if_true]
      exact ih acc hacc
    · simp only [hn, if_false]
      cases hm : alist_get b.mappings c.name with
      | none => exact ih acc hacc
      | some mp =>
        refine ih _ ?_
        simp [hacc]

/-- The number of intents `process_transcript` reports emitted equals the number
of payloads it writes. -/
theorem process_transcript_len (b : ChatIntentBridge) (t : String) :
    (process_transcript b t).2.length = (process_transcript b t).1 := by
  unfold process_transcript
  cases hp : chat_parse t with
  | nil =>
    simp only [List.isEmpty_nil, if_true]
    cases b.manifest_configured
    · rfl
    · simp only [if_true]
      cases b.route t with
      | none => rfl
      | some pr =>
        obtain ⟨nm, args⟩ := pr
        by_cases hn : nm = "intent_list"
        · simp [hn]
        · simp only [hn, if_false]
          cases alist_get b.mappings nm with
          | none => rfl
          | some mp => rfl
  | cons c rest =>
    simp only [List.isEmpty_cons, Bool.false_eq_true, if_false]
    exact emit_foldl_invariant b (c :: rest) (0, []) rfl

/-- Claim C7: the chat line `[macro:export_quotes symbol=AAPL qty=10]`, with
`export_quotes` mapped, makes `process_transcript` write exactly one intent
file, whose document is `{intent: "export_quotes",
args: {symbol: "AAPL", qty: "10"}}` with both values kept as strings. -/
theorem C7_chat_line_end_to_end (b : ChatIntentBridge) (m : IntentMapping)
    (hmap : alist_get b.mappings "export_quotes" = some m) :
    process_transcript b "[macro:export_quotes symbol=AAPL qty=10]" =
      (1, [{ intent := "export_quotes",
             args := some [("symbol", "AAPL"), ("qty", "10")] }]) := by
  have hparse : chat_parse "[macro:export_quotes symbol=AAPL qty=10]" =
      [{ name := "export_quotes", args := [("symbol", "AAPL"), ("qty", "10")],
         source := "[macro:export_quotes symbol=AAPL qty=10]" }] := by decide
  unfold process_transcript
  rw [hparse]
  simp [hmap, ChatCommand.to_intent_payload]

/-- Claim C7 witness: a concrete bridge mapping `export_quotes` emits exactly
the expected single payload for the scenario line. -/
theorem C7_witness :
    process_transcript
      (ChatIntentBridge.mk [("export_quotes", IntentMapping.mk "export.yml")] false
        (fun _ => none))
      "[macro:export_quotes symbol=AAPL qty=10]" =
      (1, [{ intent := "export_quotes",
             args := some [("symbol", "AAPL"), ("qty", "10")] }]) := by
  exact C7_chat_line_end_to_end
    (ChatIntentBridge.mk [("export_quotes", IntentMapping.mk "export.yml")] false
      (fun _ => none))
    (IntentMapping.mk "export.yml") rfl


/-! ### OCR scanner lemmas -/

theorem mem_of_mem_if_append {α : Type} {l : List α} {x key : α}
    {d : Decidable (key ∈ l)}
    (h : x ∈ (@ite _ (key ∈ l) d l (l ++ [key]))) : x ∈ l ++ [key] := by
  cases d with
  | isTrue hc =>
    rw [if_pos hc] at h
    exact List.mem_append_left _ h
  | isFalse hc =>
    rwa [if_neg hc] at h

theorem mem_if_append (l : List FiredKey) (key : FiredKey) :
    key ∈ (if key ∈ l then l else l ++ [key]) := by
  by_cases h : key ∈ l <;> simp [h]

theorem mem_record_fired (st : OCRIntentScanner) (key : FiredKey) :
    key ∈ (record_fired st key).fired_lookup := by
  unfold record_fired
  exact mem_if_append _ key

theorem process_marker_skip (b : ChatIntentBridge) (acc : ScanOutcome) (m : Marker)
    (K : FiredKey) (hk : marker_key m = some K) (hmem : K ∈ acc.state.fired_lookup) :
    process_marker b acc m = acc := by
  unfold process_marker
  by_cases hempty : (py_strip m.command).isEmpty
  · simp [hempty]
  · simp only [Bool.not_eq_true] at hempty
    simp only [hempty, Bool.false_eq_true, if_false]
    unfold marker_key at hk
    cases hp : chat_parse (marker_transcript m) with
    | nil =>
      rw [hp] at hk
    | cons c rest =>
      rw [hp] at hk
      have hk2 : (c.name, sort_pairs c.args) = K := by simpa using hk
      subst hk2
      simp [hmem]

theorem process_marker_fresh (b : ChatIntentBridge) (acc : ScanOutcome) (m : Marker)
    (K : FiredKey)
    (hne : (py_strip m.command).isEmpty = false)
    (hk : marker_key m = some K)
    (hmem : K ∉ acc.state.fired_lookup) :
    process_marker b acc m =
      (if (process_transcript b (marker_transcript m)).1 ≠ 0 then
        { emitted := acc.emitted + 1, state := record_fired acc.state K,
          written := acc.written ++ (process_transcript b (marker_transcript m)).2,
          sent := acc.sent ++ [marker_transcript m] }
      else
        { acc with
          written := acc.written ++ (process_transcript b (marker_transcript m)).2,
          sent := acc.sent ++ [marker_transcript m] }) := by
  unfold process_marker
  simp only [hne, Bool.false_eq_true, if_false]
  unfold marker_key at hk
  cases hp : chat_parse (marker_transcript m) with
  | nil =>
    exact absurd hk (by rw [hp]; simp)
  | cons c rest =>
    rw [hp] at hk
    have hk2 : (c.name, sort_pairs c.args) = K := by simpa using hk
    subst hk2
    simp [hmem]

/-- Claim C8: OCR-marker deduplication.  (i) A text containing the same marker
command twice (both occurrences parsing to the same (name, sorted-args) key,
fresh in the dedup state) yields exactly one bridge emission, one written
intent, and records the key; (ii) when the key is already in the dedup lookup,
process_text emits nothing and leaves the state untouched (so an immediately
repeated call, whose state contains the key by (iii), emits nothing); (iii)
recording inserts the key into the lookup; (iv) recording into a full FIFO
history evicts exactly the oldest entry, after which that entry is no longer
deduplicated. -/
theorem C8_ocr_marker_dedup :
    (∀ (b : ChatIntentBridge) (st : OCRIntentScanner) (text : String) (m1 m2 : Marker)
        (K : FiredKey),
      extract_markers text = [m1, m2] →
      (py_strip m1.command).isEmpty = false →
      (py_strip m2.command).isEmpty = false →
      marker_key m1 = some K → marker_key m2 = some K →
      K ∉ st.fired_lookup →
      (process_transcript b (marker_transcript m1)).1 = 1 →
      st.process_text b text =
        { emitted := 1, state := record_fired st K,
          written := (process_transcript b (marker_transcript m1)).2,
          sent := [marker_transcript m1] } ∧
      (st.process_text b text).written.length = 1) ∧
    (∀ (b : ChatIntentBridge) (st : OCRIntentScanner) (text : String) (m1 m2 : Marker)
        (K : FiredKey),
      extract_markers text = [m1, m2] →
      marker_key m1 = some K → marker_key m2 = some K →
      K ∈ st.fired_lookup →
      st.process_text b text =
        { emitted := 0, state := st, written := [], sent := [] }) ∧
    (∀ (st : OCRIntentScanner) (K : FiredKey), K ∈ (record_fired st K).fired_lookup) ∧
    (∀ (st : OCRIntentScanner) (K2 expired : FiredKey) (rest : List FiredKey),
      st.fired_history = expired :: rest →
      st.maxlen = rest.length + 1 →
      K2 ≠ expired →
      (record_fired st K2).fired_history = rest ++ [K2] ∧
      expired ∉ (record_fired st K2).fired_lookup) := by
  refine ⟨?_, ?_, mem_record_fired, ?_⟩
  · intro b st text m1 m2 K hext h1 h2 hk1 hk2 hmem hcnt
    have hfold : st.process_text b text =
        process_marker b (process_marker b ⟨0, st, [], []⟩ m1) m2 := by
      unfold OCRIntentScanner.process_text
      rw [hext]
      rfl
    have hstep1 : process_marker b ⟨0, st, [], []⟩ m1 =
        { emitted := 1, state := record_fired st K,
          written := (process_transcript b (marker_transcript m1)).2,
          sent := [marker_transcript m1] } := by
      rw [process_marker_fresh b ⟨0, st, [], []⟩ m1 K h1 hk1 hmem]
      rw [if_pos (by rw [hcnt]; exact one_ne_zero)]
      simp
    have hstep2 : process_marker b
        { emitted := 1, state := record_fired st K,
          written := (process_transcript b (marker_transcript m1)).2,
          sent := [marker_transcript m1] } m2 =
        { emitted := 1, state := record_fired st K,
          written := (process_transcript b (marker_transcript m1)).2,
          sent := [marker_transcript m1] } :=
      process_marker_skip b _ m2 K hk2 (mem_record_fired st K)
    have heq : st.process_text b text =
        { emitted := 1, state := record_fired st K,
          written := (process_transcript b (marker_transcript m1)).2,
          sent := [marker_transcript m1] } := by
      rw [hfold, hstep1, hstep2]
    refine ⟨heq, ?_⟩
    rw [heq]
    exact (process_transcript_len b (marker_transcript m1)).trans hcnt
  · intro b st text m1 m2 K hext hk1 hk2 hmem
    have hfold : st.process_text b text =
        process_marker b (process_marker b ⟨0, st, [], []⟩ m1) m2 := by
      unfold OCRIntentScanner.process_text
      rw [hext]
      rfl
    rw [hfold, process_marker_skip b ⟨0, st, [], []⟩ m1 K hk1 hmem,
      process_marker_skip b ⟨0, st, [], []⟩ m2 K hk2 hmem]
  · intro st K2 expired rest hh hm hne
    unfold record_fired
    rw [hh]
    have hcond2 : st.maxlen ≠ 0 ∧ (expired :: rest).length = st.maxlen := by
      constructor
      · rw [hm]; exact Nat.succ_ne_zero _
      · rw [hm]; simp
    simp only [if_pos hcond2]
    refine ⟨trivial, ?_⟩
    intro hmem
    have hmem2 : expired ∈
        st.fired_lookup.filter (fun k => decide (k ≠ expired)) ++ [K2] :=
      mem_of_mem_if_append hmem
    rcases List.mem_append.mp hmem2 with hin | hin
    · have h2 := List.of_mem_filter hin
      simp at h2
    · rw [List.mem_singleton] at hin
      exact hne hin.symm

/-- Claim C8 witness: on a fresh scanner with `demo` mapped, the text
`#intent#[demo] #intent#[demo]` emits exactly one intent and writes one file. -/
theorem C8_witness :
    ((OCRIntentScanner.mk [] [] 50).process_text
        (ChatIntentBridge.mk [("demo", IntentMapping.mk "demo.yml")] false
          (fun _ => none))
        "#intent#[demo] #intent#[demo]").emitted = 1 ∧
    ((OCRIntentScanner.mk [] [] 50).process_text
        (ChatIntentBridge.mk [("demo", IntentMapping.mk "demo.yml")] false
          (fun _ => none))
        "#intent#[demo] #intent#[demo]").written.length = 1 := by
  obtain ⟨heq, hlen⟩ := C8_ocr_marker_dedup.1
    (ChatIntentBridge.mk [("demo", IntentMapping.mk "demo.yml")] false (fun _ => none))
    (OCRIntentScanner.mk [] [] 50) "#intent#[demo] #intent#[demo]"
    (Marker.mk "" "demo") (Marker.mk "" "demo") ("demo", [])
    (by decide) (by decide) (by decide) (by decide) (by decide) (by decide) (by decide)
  exact ⟨by rw [heq], hlen⟩

/-- Claim C10: the dedup key is recorded only when the bridge actually emitted.
(i) A transcript parsing to a single command with an unmapped name makes the
bridge log, drop it and return zero with nothing written; (ii) a marker whose
bridge call returns zero is forwarded to the bridge but never added to the
dedup history — the scan outcome carries the sent transcript while the state is
unchanged, so the same text is re-attempted on every later scan. -/
theorem C10_unmapped_marker_not_recorded :
    (∀ (b : ChatIntentBridge) (t : String) (c : ChatCommand),
      chat_parse t = [c] → alist_get b.mappings c.name = none →
      process_transcript b t = (0, [])) ∧
    (∀ (b : ChatIntentBridge) (st : OCRIntentScanner) (text : String) (m : Marker)
        (K : FiredKey),
      extract_markers text = [m] →
      (py_strip m.command).isEmpty = false →
      marker_key m = some K →
      K ∉ st.fired_lookup →
      (process_transcript b (marker_transcript m)).1 = 0 →
      st.process_text b text =
        { emitted := 0, state := st, written := [],
          sent := [marker_transcript m] }) := by
  constructor
  · intro b t c hp hm
    unfold process_transcript
    rw [hp]
    simp only [List.isEmpty_cons, Bool.false_eq_true, if_false, List.foldl_cons,
      List.foldl_nil]
    by_cases hn : c.name = "list_intents"
    · simp [hn]
    · simp [hn, hm]
  · intro b st text m K hext hne hk hmem hcnt
    have hwr : (process_transcript b (marker_transcript m)).2 = [] := by
      have hl := process_transcript_len b (marker_transcript m)
      rw [hcnt] at hl
      exact List.eq_nil_of_length_eq_zero hl
    have hfold : st.process_text b text = process_marker b ⟨0, st, [], []⟩ m := by
      unfold OCRIntentScanner.process_text
      rw [hext]
      rfl
    rw [hfold, process_marker_fresh b ⟨0, st, [], []⟩ m K hne hk hmem]
    rw [if_neg (by rw [hcnt]; exact fun h => h rfl)]
    rw [hwr]
    simp

/-- Claim C10 witness: with no mappings configured, the `#intent#[demo]` marker
is forwarded to the bridge (which returns zero), nothing is recorded, and the
scanner state is unchanged. -/
theorem C10_witness :
    process_transcript
      (ChatIntentBridge.mk [] false (fun _ => none)) "[macro:demo]" = (0, []) ∧
    (OCRIntentScanner.mk [] [] 50).process_text
      (ChatIntentBridge.mk [] false (fun _ => none)) "#intent#[demo]" =
      { emitted := 0, state := OCRIntentScanner.mk [] [] 50, written := [],
        sent := ["[macro:demo]"] } := by
  constructor
  · exact C10_unmapped_marker_not_recorded.1
      (ChatIntentBridge.mk [] false (fun _ => none)) "[macro:demo]"
      (ChatCommand.mk "demo" [] "[macro:demo]") (by decide) rfl
  · have h := C10_unmapped_marker_not_recorded.2
      (ChatIntentBridge.mk [] false (fun _ => none))
      (OCRIntentScanner.mk [] [] 50) "#intent#[demo]" (Marker.mk "" "demo")
      ("demo", []) (by decide) (by decide) (by decide) (by decide) (by decide)
    rw [h]
    decide

end Agent
